import Mathlib

/-!
Verification development for the trial_api_orchestrator repository: a shallow
embedding of the provider orchestration core (credential store, telemetry
stores, vendor adapter HTTP classification, Cohere response normalization,
and the selector / failover engine) together with theorems about the
embedded definitions.

Conventions of the embedding:
* Python dictionaries / parsed JSON payloads are modelled by the `Json`
  inductive; `Json.get` models `dict.get(key)` (returning `none` both for a
  missing key and for a non-dict receiver, where Python would raise
  `AttributeError` on the latter; theorems restrict to object-shaped inputs
  where that distinction matters).
* Wall-clock timestamps are modelled as natural numbers counting seconds
  since the epoch; `startOfTodayUtc` floors to a multiple of 86400.
* Fallible Python code is modelled with `Except`/`Option`; raised
  exceptions become `Except.error` values.
-/

/-- Parsed JSON value, the model of the duck-typed payloads the adapters
consume and produce. Object keys are unique in every payload considered. -/
inductive Json where
  | null
  | bool (b : Bool)
  | num (n : Int)
  | str (s : String)
  | arr (items : List Json)
  | obj (kvs : List (String × Json))

/-- Association-list lookup used by `Json.get` (first matching key). -/
def lookupKv : List (String × Json) → String → Option Json
  | [], _ => none
  | (k, v) :: rest, key => if k == key then some v else lookupKv rest key

/-- Model of Python `item.get(key)` on a parsed-JSON value. Returns `none`
for a non-object receiver (Python would raise `AttributeError` there;
theorems about code that can crash restrict to object receivers). -/
def Json.get : Json → String → Option Json
  | .obj kvs, key => lookupKv kvs key
  | _, _ => none

/-- Python truthiness of a parsed-JSON value. -/
def Json.truthy : Json → Bool
  | .null => false
  | .bool b => b
  | .num n => n != 0
  | .str s => s != ""
  | .arr items => !items.isEmpty
  | .obj kvs => !kvs.isEmpty

/-- Returns true when the value is a JSON object (Python `isinstance(x, dict)`). -/
def Json.isObj : Json → Bool
  | .obj _ => true
  | _ => false

/-- Returns true when the value is a JSON string (Python `isinstance(x, str)`). -/
def Json.isStr : Json → Bool
  | .str _ => true
  | _ => false

/-- Model of `x or y` on an optional lookup result: Python falls back to `y`
when the lookup is missing or falsy. -/
def pyOr (x : Option Json) (y : Json) : Json :=
  match x with
  | some v => if v.truthy then v else y
  | none => y

mutual
/-- Compact JSON serialization, the model of `json.dumps` on payloads that
are pure parsed-JSON values (always serializable). -/
def Json.dumps : Json → String
  | .null => "null"
  | .bool true => "true"
  | .bool false => "false"
  | .num n => toString n
  | .str s => "\"" ++ s ++ "\""
  | .arr items => "[" ++ dumpsList items ++ "]"
  | .obj kvs => "\x7b" ++ dumpsKvs kvs ++ "\x7d"

/-- Serializes the elements of a JSON array, comma separated. -/
def dumpsList : List Json → String
  | [] => ""
  | [j] => Json.dumps j
  | j :: rest => Json.dumps j ++ ", " ++ dumpsList rest

/-- Serializes the entries of a JSON object, comma separated. -/
def dumpsKvs : List (String × Json) → String
  | [] => ""
  | [(k, v)] => "\"" ++ k ++ "\": " ++ Json.dumps v
  | (k, v) :: rest => "\"" ++ k ++ "\": " ++ Json.dumps v ++ ", " ++ dumpsKvs rest
end

mutual
/-- Model of Python `str(...)` applied to a parsed-JSON value (dict/list
rendering with single-quoted strings), used by the Gemini error-detail
extraction fallbacks. -/
def pyStr : Json → String
  | .null => "None"
  | .bool true => "True"
  | .bool false => "False"
  | .num n => toString n
  | .str s => s
  | .arr items => "[" ++ pyStrList items ++ "]"
  | .obj kvs => "\x7b" ++ pyStrKvs kvs ++ "\x7d"

/-- Model of Python `repr(...)` of a parsed-JSON value nested inside a
container. -/
def pyRepr : Json → String
  | .null => "None"
  | .bool true => "True"
  | .bool false => "False"
  | .num n => toString n
  | .str s => "\x27" ++ s ++ "\x27"
  | .arr items => "[" ++ pyStrList items ++ "]"
  | .obj kvs => "\x7b" ++ pyStrKvs kvs ++ "\x7d"

/-- Renders list elements for `pyStr`. -/
def pyStrList : List Json → String
  | [] => ""
  | [j] => pyRepr j
  | j :: rest => pyRepr j ++ ", " ++ pyStrList rest

/-- Renders dict entries for `pyStr`. -/
def pyStrKvs : List (String × Json) → String
  | [] => ""
  | [(k, v)] => "\x27" ++ k ++ "\x27: " ++ pyRepr v
  | (k, v) :: rest => "\x27" ++ k ++ "\x27: " ++ pyRepr v ++ ", " ++ pyStrKvs rest
end

/-! ## Credential store (src/app/storage/credentials.py, models.py)

The store is modelled as the list of `provider_credentials` rows together
with the autoincrement counter for the primary key. Each mutating helper
from `credentials.py` becomes a function on this state; `now` stands for
`datetime.now(timezone.utc)` (and for the server-maintained `updated_at`
timestamp of the touched row). -/

/-- Row of the `provider_credentials` table (ORM model `ProviderCredential`). -/
structure ProviderCredential where
  id : Nat
  provider_id : String
  api_key : String
  last_error : Option String
  last_error_at : Option Nat
  updated_at : Nat
deriving DecidableEq

/-- State of the credential table: rows plus the autoincrement counter. -/
structure CredStore where
  nextId : Nat
  rows : List ProviderCredential
deriving DecidableEq

/-- Credential table with no rows. -/
def emptyCredStore : CredStore := { nextId := 1, rows := [] }

/-- Model of `session.scalar(select(ProviderCredential).where(provider_id == pid))`:
the first row matching the provider id. -/
def findCredential (st : CredStore) (pid : String) : Option ProviderCredential :=
  st.rows.find? (fun r => r.provider_id == pid)

/-- Applies an update to every row carrying the given primary key, the model
of `update(ProviderCredential).where(ProviderCredential.id == i)` (the
`onupdate` hook also stamps `updated_at`, which the update function covers). -/
def updateRowsById (i : Nat) (g : ProviderCredential → ProviderCredential)
    (rows : List ProviderCredential) : List ProviderCredential :=
  rows.map (fun r => if r.id == i then g r else r)

/-- Model of `upsert_api_key`: replace the key and clear both error fields
when a row exists, otherwise insert a fresh row. -/
def upsert_api_key (pid key : String) (now : Nat) (st : CredStore) : CredStore :=
  match findCredential st pid with
  | some existing =>
    let g := fun r => { r with api_key := key, last_error := none, last_error_at := none,
                               updated_at := now }
    { st with rows := updateRowsById existing.id g st.rows }
  | none =>
    { nextId := st.nextId + 1,
      rows := st.rows ++ [{ id := st.nextId, provider_id := pid, api_key := key,
                            last_error := none, last_error_at := none, updated_at := now }] }

/-- Model of `get_api_key`: the stored API key for the provider, if any. -/
def get_api_key (pid : String) (st : CredStore) : Option String :=
  (findCredential st pid).map (fun r => r.api_key)

/-- Model of `record_error`: stamp the latest error; insert a row with an
empty key when the provider has none yet. -/
def record_error (pid code : String) (now : Nat) (st : CredStore) : CredStore :=
  match findCredential st pid with
  | some existing =>
    let g := fun r => { r with last_error := some code, last_error_at := some now,
                               updated_at := now }
    { st with rows := updateRowsById existing.id g st.rows }
  | none =>
    { nextId := st.nextId + 1,
      rows := st.rows ++ [{ id := st.nextId, provider_id := pid, api_key := "",
                            last_error := some code, last_error_at := some now,
                            updated_at := now }] }

/-- Python truthiness of the stored `last_error` column (`None` and the
empty string are falsy). -/
def errTruthy : Option String → Bool
  | some s => s != ""
  | none => false

/-- Model of `clear_error`: a no-op unless a row exists whose `last_error`
is truthy. -/
def clear_error (pid : String) (now : Nat) (st : CredStore) : CredStore :=
  match findCredential st pid with
  | some existing =>
    if errTruthy existing.last_error then
      let g := fun r => { r with last_error := none, last_error_at := none,
                                 updated_at := now }
      { st with rows := updateRowsById existing.id g st.rows }
    else st
  | none => st

/-- Model of `delete_api_key`: remove the row when present, reporting
whether one was removed. -/
def delete_api_key (pid : String) (st : CredStore) : Bool × CredStore :=
  match findCredential st pid with
  | some existing =>
    (true, { st with rows := st.rows.filter (fun r => r.id != existing.id) })
  | none => (false, st)

/-- One credential-store mutation, for reasoning about arbitrary operation
sequences. -/
inductive CredOp where
  | upsert (pid key : String) (now : Nat)
  | recordErr (pid code : String) (now : Nat)
  | clearErr (pid : String) (now : Nat)
  | delete (pid : String)
deriving DecidableEq

/-- Applies one credential-store mutation. -/
def applyCredOp (st : CredStore) : CredOp → CredStore
  | .upsert pid key now => upsert_api_key pid key now st
  | .recordErr pid code now => record_error pid code now st
  | .clearErr pid now => clear_error pid now st
  | .delete pid => (delete_api_key pid st).2

/-- Applies a sequence of credential-store mutations, oldest first. -/
def applyCredOps (ops : List CredOp) (st : CredStore) : CredStore :=
  ops.foldl applyCredOp st

/-- Structural well-formedness of the credential table: provider ids are
unique (the `uq_provider_credentials_provider_id` constraint), primary keys
are unique, and every key is below the autoincrement counter. -/
def StoreWf (st : CredStore) : Prop :=
  st.rows.Pairwise (fun a b => a.provider_id ≠ b.provider_id) ∧
  st.rows.Pairwise (fun a b => a.id ≠ b.id) ∧
  ∀ r ∈ st.rows, r.id < st.nextId

instance (st : CredStore) : Decidable (StoreWf st) := by
  unfold StoreWf; infer_instance

/-- Per-row invariant claimed by the spec: `last_error_at` is null iff
`last_error` is null. -/
def RowErrInv (r : ProviderCredential) : Prop :=
  r.last_error_at = none ↔ r.last_error = none

/-! ## Telemetry stores (src/app/telemetry/events.py, src/app/storage/provider_logs.py)

Timestamps are seconds since the epoch; `startOfTodayUtc` models
`datetime(now.year, now.month, now.day, tzinfo=timezone.utc)` by flooring
to a day boundary. The boolean `dbOk` parameter models whether the
transactional write commits; the source swallows persistence failures, so
a failed transaction leaves the table unchanged. -/

/-- Number of seconds in one day. -/
def secondsPerDay : Nat := 86400

/-- Model of the start-of-today computation shared by both retention rules. -/
def startOfTodayUtc (now : Nat) : Nat := now / secondsPerDay * secondsPerDay

/-- Retention window of the event store (`_RETENTION_DAYS = 2`, keep today
plus yesterday). -/
def RETENTION_DAYS : Nat := 2

/-- Model of `_current_retention_cutoff`: the earliest `ts` that must remain. -/
def currentRetentionCutoff (now : Nat) : Nat :=
  startOfTodayUtc now - (RETENTION_DAYS - 1) * secondsPerDay

/-- Row of the `events` table (ORM model `OrchestratorEvent`). -/
structure OrchestratorEvent where
  ts : Nat
  level : String
  kind : String
  request_id : Option String
  provider_from : Option String
  provider_to : Option String
  model : Option String
  error_code : Option String
  message : Option String
  meta : Option String
deriving DecidableEq

/-- Keyword fields picked out of `**fields` by `record_event`. -/
structure EventFields where
  provider_from : Option String := none
  provider_to : Option String := none
  model : Option String := none
  error_code : Option String := none
deriving DecidableEq

/-- Model of `_prune_old_events`: delete all rows with `ts` before the cutoff. -/
def pruneOldEvents (now : Nat) (rows : List OrchestratorEvent) : List OrchestratorEvent :=
  rows.filter (fun r => decide (currentRetentionCutoff now ≤ r.ts))

/-- Python value passed as the `meta` argument of `record_event`; `objRef`
stands for an object `json.dumps` rejects. -/
inductive PyVal where
  | str (s : String)
  | int (n : Int)
  | dict (kvs : List (String × PyVal))
  | objRef

/-- Python truthiness of a `meta` value. -/
def PyVal.truthy : PyVal → Bool
  | .str s => s != ""
  | .int n => n != 0
  | .dict kvs => !kvs.isEmpty
  | .objRef => true

mutual
/-- Model of `json.dumps` on a `meta` value: fails (raising `TypeError`)
on values that are not JSON serializable. -/
def PyVal.dumps : PyVal → Except String String
  | .str s => .ok ("\"" ++ s ++ "\"")
  | .int n => .ok (toString n)
  | .dict kvs => (pyDumpsKvs kvs).map (fun body => "\x7b" ++ body ++ "\x7d")
  | .objRef => .error "Object of type object is not JSON serializable"

/-- Serializes dict entries of a `meta` value. -/
def pyDumpsKvs : List (String × PyVal) → Except String String
  | [] => .ok ""
  | [(k, v)] => (PyVal.dumps v).map (fun vs => "\"" ++ k ++ "\": " ++ vs)
  | (k, v) :: rest => do
      let vs ← PyVal.dumps v
      let restS ← pyDumpsKvs rest
      pure ("\"" ++ k ++ "\": " ++ vs ++ ", " ++ restS)
end

/-- Model of Python `str.upper()`, mapping each character to upper case
(char-by-char over the decoded string). -/
def pyUpper (s : String) : String := String.mk (s.data.map Char.toUpper)

/-- Model of `x or y` on optional strings (`request_id or get_request_id()`):
an empty string is falsy. -/
def pyOrStr (x y : Option String) : Option String :=
  match x with
  | some s => if s != "" then some s else y
  | none => y

/-- Serialization of the `meta` argument performed while the event row is
built: `json.dumps(meta, ensure_ascii=True) if meta else None`. This step
runs before the guarded `try` block in the source. -/
def buildEventMeta : Option PyVal → Except String (Option String)
  | some m => if m.truthy then (PyVal.dumps m).map some else .ok none
  | none => .ok none

/-- Model of `record_event`. The result is `Except.error` exactly when the
call raises into its caller; `dbOk = false` models a failing transactional
write (swallowed and logged by the source). -/
def record_event (enabled : Bool) (kind level : String)
    (message request_id : Option String) (meta : Option PyVal)
    (fields : EventFields) (ctxRequestId : Option String) (now : Nat)
    (dbOk : Bool) (rows : List OrchestratorEvent) :
    Except String (List OrchestratorEvent) :=
  if !enabled then .ok rows
  else
    match buildEventMeta meta with
    | .error e => .error e
    | .ok metaStr =>
      let row : OrchestratorEvent :=
        { ts := now, level := pyUpper level, kind := kind,
          request_id := pyOrStr request_id ctxRequestId,
          message := message,
          provider_from := fields.provider_from, provider_to := fields.provider_to,
          model := fields.model, error_code := fields.error_code,
          meta := metaStr }
      if dbOk then .ok (pruneOldEvents now (rows ++ [row]))
      else .ok rows

/-- Modelled from the spec: the ORM model `ProviderLog` is referenced by
`src/app/storage/provider_logs.py` but its declaration is missing from
`src/app/storage/models.py` in the sources; per spec section 3 a row is
`(id, provider_id, created_at, request_id, request_body, response_body)`
with `created_at` stamped by the store when the row is inserted. -/
structure ProviderLog where
  id : Nat
  provider_id : String
  request_id : Option String
  request_body : Option String
  response_body : Option String
  created_at : Nat
deriving DecidableEq

/-- State of the `provider_logs` table. -/
structure LogStore where
  nextId : Nat
  rows : List ProviderLog
deriving DecidableEq

/-- Model of `_encode` restricted to parsed-JSON payloads, on which
`json.dumps` always succeeds; `None` stays `None`. -/
def encodePayload : Option Json → Option String
  | none => none
  | some p => some (Json.dumps p)

/-- Model of `record_provider_log`: in one transaction, delete the entries
older than today and append the new entry; a failing transaction
(`dbOk = false`) is swallowed. -/
def record_provider_log (pid : String) (request_body response_body : Option Json)
    (request_id ctxRequestId : Option String) (now : Nat) (dbOk : Bool)
    (st : LogStore) : LogStore :=
  if dbOk then
    let entry : ProviderLog :=
      { id := st.nextId, provider_id := pid,
        request_id := pyOrStr request_id ctxRequestId,
        request_body := encodePayload request_body,
        response_body := encodePayload response_body,
        created_at := now }
    { nextId := st.nextId + 1,
      rows := (st.rows.filter (fun r => decide (startOfTodayUtc now ≤ r.created_at))) ++ [entry] }
  else st

/-! ## Vendor adapter HTTP pipeline (src/app/providers/)

Each adapter's `_post_chat` is embedded as a pure function from the HTTP
outcome of the single upstream POST to the effects it performs: the
credential-store actions it requests, the trace entries it writes through
`record_provider_log`, and the value it returns or the exception it
raises. `HttpOutcome.response` carries the status code, the result of
`response.json()` (`none` when the body is not valid JSON, where
`response.json()` raises), and `response.text`. -/

/-- Model of Python `str.strip()`: drop leading and trailing whitespace,
char-by-char over the decoded string. -/
def pyStrip (s : String) : String :=
  String.mk (((s.data.dropWhile Char.isWhitespace).reverse.dropWhile Char.isWhitespace).reverse)

/-- Model of Python `str.split()` with no argument: the maximal nonempty
chunks between whitespace runs. -/
def pySplitWhitespace (s : String) : List String :=
  ((s.data.splitOnP Char.isWhitespace).map String.mk).filter (fun t => t != "")

/-- Model of `ProviderUnavailableError`; `isAuth` marks the
`AuthenticationRequiredError` subclass. -/
structure PUError where
  provider_id : String
  message : String
  isAuth : Bool
deriving DecidableEq

/-- Model of `AuthenticationRequiredError(provider_id)`. -/
def authRequiredError (pid : String) : PUError :=
  { provider_id := pid, message := "Provider credentials missing", isAuth := true }

/-- Outcome of the upstream `httpx` POST observed by `_post_chat`. -/
inductive HttpOutcome where
  | netError (excMsg : String)
  | response (status : Nat) (body : Option Json) (text : String)

/-- One credential-store action requested by an adapter. -/
inductive CredAction where
  | record (code : String)
  | clear
deriving DecidableEq

/-- Exception leaving `_post_chat`: a `ProviderUnavailableError` (possibly
the auth subclass) or the undeclared `ValueError` that `response.json()`
raises on a body that is not valid JSON. -/
inductive AdapterRaise where
  | pu (e : PUError)
  | jsonDecode
deriving DecidableEq

/-- Effects of one `_post_chat` attempt. -/
structure AdapterResult where
  creds : List CredAction
  traces : List (Json × Json)
  outcome : Except AdapterRaise Json

/-- Model of `utils.extract_error_body`: structured details when the body
parses as JSON, else the trimmed text when nonempty, else nothing. -/
def extract_error_body (body : Option Json) (text : String) : Option Json :=
  match body with
  | some j => some j
  | none =>
    let t := pyStrip text
    if t != "" then some (.str t) else none

/-- Model of `utils.build_error_log`. -/
def build_error_log (errorType msg : String) (statusCode : Option Nat)
    (responseBody : Option Json) : Json :=
  let errFields := [("type", Json.str errorType), ("message", Json.str msg)] ++
    (match statusCode with
     | some c => [("status_code", Json.num (Int.ofNat c))]
     | none => [])
  Json.obj ([("error", Json.obj errFields)] ++
    (match responseBody with
     | some b => [("response", b)]
     | none => []))

/-- Model of `httpx.Response.is_error` (a 4xx or 5xx status). -/
def isHttpError (status : Nat) : Bool :=
  decide (400 ≤ status) && decide (status ≤ 599)

/-- Shared embedding of the `_post_chat` bodies of `CohereProvider` and
`CerebrasProvider`, which are line-for-line the same classification and
trace-writing logic and differ only in the provider id. -/
def tracedPostChat (pid : String) (payload : Json) (h : HttpOutcome)
    (track : Bool) : AdapterResult :=
  match h with
  | .netError excMsg =>
    { creds := if track then [.record "network"] else [],
      traces := if track then [(payload, build_error_log "network" excMsg none none)] else [],
      outcome := .error (.pu { provider_id := pid, message := "Provider request failed",
                               isAuth := false }) }
  | .response status body text =>
    if status == 401 then
      { creds := if track then [.record "auth"] else [],
        traces := if track then
          [(payload, build_error_log "unauthorized" "HTTP 401" (some 401)
              (extract_error_body body text))] else [],
        outcome := .error (.pu (authRequiredError pid)) }
    else if status == 402 || status == 403 || status == 429 then
      { creds := if track then [.record "rate_limit"] else [],
        traces := if track then
          [(payload, build_error_log "rate_limit" (s!"HTTP {status}") (some status)
              (extract_error_body body text))] else [],
        outcome := .error (.pu { provider_id := pid, message := "Provider quota exhausted",
                                 isAuth := false }) }
    else if isHttpError status then
      { creds := if track then [.record (s!"http_{status}")] else [],
        traces := if track then
          [(payload, build_error_log "http_error" (s!"HTTP {status}") (some status)
              (extract_error_body body text))] else [],
        outcome := .error (.pu { provider_id := pid, message := "Provider error",
                                 isAuth := false }) }
    else
      let cleared := if track then [CredAction.clear] else []
      match body with
      | none => { creds := cleared, traces := [], outcome := .error .jsonDecode }
      | some data =>
        if !data.isObj then
          { creds := cleared,
            traces := if track then
              [(payload, build_error_log "unexpected_response" "Response was not a JSON object"
                  none (extract_error_body (some data) text))] else [],
            outcome := .error (.pu { provider_id := pid,
                                     message := "Unexpected response format", isAuth := false }) }
        else
          { creds := cleared,
            traces := if track then [(payload, data)] else [],
            outcome := .ok data }

/-- Embedding of `CohereProvider._post_chat`. -/
def cohere_post_chat : Json → HttpOutcome → Bool → AdapterResult :=
  tracedPostChat "cohere"

/-- Embedding of `CerebrasProvider._post_chat`. -/
def cerebras_post_chat : Json → HttpOutcome → Bool → AdapterResult :=
  tracedPostChat "cerebras"

/-- Limit applied to the Gemini error detail (`MAX_ERROR_DETAIL_LENGTH`). -/
def MAX_ERROR_DETAIL_LENGTH : Nat := 300

/-- Model of `" ".join(detail.split())`: collapse whitespace runs. -/
def compactWhitespace (s : String) : String :=
  " ".intercalate (pySplitWhitespace s)

/-- Model of `GeminiProvider._extract_error_detail`. -/
def gemini_extract_error_detail (body : Option Json) (text : String) : Option String :=
  let detail : Option String :=
    match body with
    | none =>
      let t := pyStrip text
      if t != "" then some t else none
    | some data =>
      if data.isObj then
        match data.get "error" with
        | some errObj =>
          if errObj.isObj then
            let statusPart :=
              match errObj.get "status" with
              | some (.str s) => if pyStrip s != "" then [pyStrip s] else []
              | _ => []
            let messagePart :=
              match errObj.get "message" with
              | some (.str s) => if pyStrip s != "" then [pyStrip s] else []
              | _ => []
            let parts := statusPart ++ messagePart
            if !parts.isEmpty then some (" - ".intercalate parts)
            else if errObj.truthy then some (pyStr errObj)
            else none
          else
            match data.get "message" with
            | some (.str s) => some s
            | _ => if data.truthy then some (pyStr data) else none
        | none =>
          match data.get "message" with
          | some (.str s) => some s
          | _ => if data.truthy then some (pyStr data) else none
      else
        if data.truthy then some (pyStr data) else none
  match detail with
  | some d =>
    if d != "" then
      let compact := compactWhitespace d
      if MAX_ERROR_DETAIL_LENGTH < compact.length then
        some (compact.take (MAX_ERROR_DETAIL_LENGTH - 3) ++ "...")
      else some compact
    else none
  | none => none

/-- Appends the Gemini error detail to the base message
(`if detail: message = f"{message}: {detail}"`). -/
def appendDetail (base : String) (detail : Option String) : String :=
  match detail with
  | some d => if d != "" then base ++ ": " ++ d else base
  | none => base

/-- The `ProviderUnavailableError` raised by the Gemini adapter on an
error status: the base message with the parsed detail appended. -/
def geminiDetailedError (base : String) (body : Option Json) (text : String) : PUError :=
  { provider_id := "gemini",
    message := appendDetail base (gemini_extract_error_detail body text),
    isAuth := false }

/-- Embedding of `GeminiProvider._post_chat`. The source writes no trace
entries (it never calls `record_provider_log`). -/
def gemini_post_chat (_payload : Json) (h : HttpOutcome) (track : Bool) : AdapterResult :=
  match h with
  | .netError _ =>
    { creds := if track then [.record "network"] else [],
      traces := [],
      outcome := .error (.pu { provider_id := "gemini", message := "Provider request failed",
                               isAuth := false }) }
  | .response status body text =>
    if status == 401 then
      { creds := if track then [.record "auth"] else [],
        traces := [],
        outcome := .error (.pu (authRequiredError "gemini")) }
    else if status == 402 || status == 403 || status == 429 then
      let msg := appendDetail "Provider quota exhausted" (gemini_extract_error_detail body text)
      { creds := if track then [.record "rate_limit"] else [],
        traces := [],
        outcome := .error (.pu { provider_id := "gemini", message := msg, isAuth := false }) }
    else if isHttpError status then
      let msg := appendDetail "Provider error" (gemini_extract_error_detail body text)
      { creds := if track then [.record (s!"http_{status}")] else [],
        traces := [],
        outcome := .error (.pu { provider_id := "gemini", message := msg, isAuth := false }) }
    else
      let cleared := if track then [CredAction.clear] else []
      match body with
      | none => { creds := cleared, traces := [], outcome := .error .jsonDecode }
      | some data =>
        if !data.isObj then
          { creds := cleared, traces := [],
            outcome := .error (.pu { provider_id := "gemini",
                                     message := "Unexpected response format", isAuth := false }) }
        else
          { creds := cleared, traces := [], outcome := .ok data }

/-- Embedding of `OpenRouterProvider._post_chat` (no trace writes). -/
def openrouter_post_chat (_payload : Json) (h : HttpOutcome) (track : Bool) : AdapterResult :=
  match h with
  | .netError _ =>
    { creds := if track then [.record "network"] else [],
      traces := [],
      outcome := .error (.pu { provider_id := "openrouter",
                               message := "Provider request failed", isAuth := false }) }
  | .response status body _ =>
    if status == 401 then
      { creds := if track then [.record "auth"] else [],
        traces := [],
        outcome := .error (.pu (authRequiredError "openrouter")) }
    else if status == 402 || status == 403 || status == 429 then
      { creds := if track then [.record "rate_limit"] else [],
        traces := [],
        outcome := .error (.pu { provider_id := "openrouter",
                                 message := "Provider quota exhausted", isAuth := false }) }
    else if isHttpError status then
      { creds := if track then [.record (s!"http_{status}")] else [],
        traces := [],
        outcome := .error (.pu { provider_id := "openrouter", message := "Provider error",
                                 isAuth := false }) }
    else
      let cleared := if track then [CredAction.clear] else []
      match body with
      | none => { creds := cleared, traces := [], outcome := .error .jsonDecode }
      | some data =>
        if !data.isObj then
          { creds := cleared, traces := [],
            outcome := .error (.pu { provider_id := "openrouter",
                                     message := "Unexpected response format", isAuth := false }) }
        else
          { creds := cleared, traces := [], outcome := .ok data }

/-- Embedding of `HuggingFaceProvider._post_chat` (no trace writes, and no
check that the decoded 2xx body is a JSON object). -/
def huggingface_post_chat (_payload : Json) (h : HttpOutcome) (track : Bool) : AdapterResult :=
  match h with
  | .netError _ =>
    { creds := if track then [.record "network"] else [],
      traces := [],
      outcome := .error (.pu { provider_id := "huggingface",
                               message := "Provider request failed", isAuth := false }) }
  | .response status body _ =>
    if status == 401 then
      { creds := if track then [.record "auth"] else [],
        traces := [],
        outcome := .error (.pu (authRequiredError "huggingface")) }
    else if status == 402 || status == 403 || status == 429 then
      { creds := if track then [.record "rate_limit"] else [],
        traces := [],
        outcome := .error (.pu { provider_id := "huggingface",
                                 message := "Provider quota exhausted", isAuth := false }) }
    else if isHttpError status then
      { creds := if track then [.record (s!"http_{status}")] else [],
        traces := [],
        outcome := .error (.pu { provider_id := "huggingface", message := "Provider error",
                                 isAuth := false }) }
    else
      let cleared := if track then [CredAction.clear] else []
      match body with
      | none => { creds := cleared, traces := [], outcome := .error .jsonDecode }
      | some data => { creds := cleared, traces := [], outcome := .ok data }

/-- Adapter classes registered in `ProviderRegistry._adapter_map` (the
Hugging Face adapter exists in the sources but is not registered, so it is
never on the selector's real call path). -/
inductive AdapterKind where
  | cerebras
  | cohere
  | gemini
  | openrouter
deriving DecidableEq

/-- Registered adapters in `_adapter_map` order. -/
def registeredAdapters : List AdapterKind :=
  [.cerebras, .cohere, .gemini, .openrouter]

/-- Dispatches to the per-adapter `_post_chat` embedding. -/
def postChat : AdapterKind → Json → HttpOutcome → Bool → AdapterResult
  | .cerebras => cerebras_post_chat
  | .cohere => cohere_post_chat
  | .gemini => gemini_post_chat
  | .openrouter => openrouter_post_chat

/-- Provider id attached to each registered adapter class. -/
def adapterProviderId : AdapterKind → String
  | .cerebras => "cerebras"
  | .cohere => "cohere"
  | .gemini => "gemini"
  | .openrouter => "openrouter"

/-- Applies one requested credential action to the store. -/
def applyCredAction (pid : String) (now : Nat) (st : CredStore) :
    CredAction → CredStore
  | .record code => record_error pid code now st
  | .clear => clear_error pid now st

/-- Applies the credential actions of an attempt in order. -/
def applyCredActions (pid : String) (now : Nat) (acts : List CredAction)
    (st : CredStore) : CredStore :=
  acts.foldl (applyCredAction pid now) st

/-! ## Cohere response normalization (src/app/providers/cohere.py)

`CohereProvider._normalize_response` walks `message.content` once, in
order, splitting the items into ordered content, tool calls and citations,
then decides the shape of the assistant message content. The walk is
embedded as a fold over the content items. Inputs on which the Python code
would raise (non-dict content items, a truthy non-list `content`) are
outside the scope of the theorems; on those the embedding reads the
defensive default instead. -/

/-- Embedding of `CohereProvider._convert_response_content_item`: converts
a Cohere `image` item into an OpenAI `image_url` part, else nothing. -/
def convert_response_content_item (item : Json) : Option Json :=
  match item.get "type" with
  | some (.str "image") =>
    match item.get "source" with
    | some source =>
      if source.isObj then
        let urlBranch : Option Json :=
          match source.get "type", source.get "url" with
          | some (.str "url"), some (.str u) =>
            let mediaField :=
              match source.get "media_type" with
              | some mt => if mt.truthy then [("media_type", mt)] else []
              | none => []
            some (Json.obj [("type", .str "image_url"),
                            ("image_url", Json.obj ([("url", .str u)] ++ mediaField))])
          | _, _ => none
        match urlBranch with
        | some p => some p
        | none =>
          match source.get "type", source.get "data" with
          | some (.str "base64"), some (.str dataStr) =>
            let mediaType := pyOr (source.get "media_type") (.str "image/png")
            let dataUrl := "data:" ++ pyStr mediaType ++ ";base64," ++ dataStr
            some (Json.obj [("type", .str "image_url"),
                            ("image_url", Json.obj [("url", .str dataUrl)])])
          | _, _ => none
      else none
    | none => none
  | _ => none

/-- Embedding of `CohereProvider._normalize_tool_call`. The Python function
always returns a nonempty dict, so the `if normalized_tool` guard at the
call site always passes. -/
def normalize_tool_call (tool : Json) : Json :=
  let idVal := pyOr (tool.get "id") (.str "")
  let typeVal := pyOr (tool.get "type") (.str "function")
  let base := [("id", idVal), ("type", typeVal)]
  match tool.get "function" with
  | some fn =>
    if fn.truthy then
      let argsVal : Json :=
        match fn.get "arguments" with
        | some (.obj kvs) => .str (Json.dumps (.obj kvs))
        | some (.arr xs) => .str (Json.dumps (.arr xs))
        | some other => pyOr (some other) (.str "\x7b\x7d")
        | none => .str "\x7b\x7d"
      let nameVal := match fn.get "name" with | some v => v | none => .str ""
      Json.obj (base ++ [("function", Json.obj [("name", nameVal), ("arguments", argsVal)])])
    else Json.obj base
  | none => Json.obj base

/-- Accumulator of the content walk: ordered content, the `has_non_text`
flag, tool calls, citations. -/
structure CohereWalkState where
  oc : List Json
  hnt : Bool
  tc : List Json
  cit : List Json

/-- One iteration of the `for item in content_items` loop of
`_normalize_response`. -/
def cohereWalkStep (st : CohereWalkState) (item : Json) : CohereWalkState :=
  match item.get "type" with
  | some (.str "text") =>
    match item.get "text" with
    | some (.str t) =>
      { st with oc := st.oc ++ [Json.obj [("type", .str "text"), ("text", .str t)]] }
    | some _ => st
    | none =>
      { st with oc := st.oc ++ [Json.obj [("type", .str "text"), ("text", .str "")]] }
  | some (.str "tool_calls") =>
    let tools := match item.get "tool_calls" with | some (.arr xs) => xs | _ => []
    { st with tc := st.tc ++ tools.map normalize_tool_call }
  | some (.str "citation") =>
    let cits := match item.get "citations" with | some (.arr xs) => xs | _ => []
    { st with cit := st.cit ++ cits }
  | _ =>
    match convert_response_content_item item with
    | some converted => { st with oc := st.oc ++ [converted], hnt := true }
    | none => st

/-- Content items of the Cohere response:
`(data.get("message") or {}).get("content") or []`. -/
def cohereContentItems (data : Json) : List Json :=
  let message := pyOr (data.get "message") (.obj [])
  match pyOr (message.get "content") (.arr []) with
  | .arr xs => xs
  | _ => []

/-- The full content walk of `_normalize_response`. -/
def cohereWalk (data : Json) : CohereWalkState :=
  (cohereContentItems data).foldl cohereWalkStep
    { oc := [], hnt := false, tc := [], cit := [] }

/-- Ordered content after the `data.get("text")` fallback applied when the
walk produced nothing. -/
def cohereOrderedContent (data : Json) : List Json :=
  let oc := (cohereWalk data).oc
  if oc.isEmpty then
    match data.get "text" with
    | some t =>
      if t.truthy then [Json.obj [("type", .str "text"), ("text", t)]] else []
    | none => []
  else oc

/-- The `has_non_text` flag after the walk. -/
def cohereHasNonText (data : Json) : Bool := (cohereWalk data).hnt

/-- Tool calls collected by the walk. -/
def cohereToolCalls (data : Json) : List Json := (cohereWalk data).tc

/-- Checks `part.get("type") == "text"`. -/
def isTextTypePart (p : Json) : Bool :=
  match p.get "type" with
  | some (.str "text") => true
  | _ => false

/-- Checks `part.get("type") == "image_url"`. -/
def isImageUrlPart (p : Json) : Bool :=
  match p.get "type" with
  | some (.str "image_url") => true
  | _ => false

/-- String content of a text part (`part.get("text", "")`), reading `""`
for a missing or non-string value. -/
def partTextValue (p : Json) : String :=
  match p.get "text" with
  | some (.str t) => t
  | _ => ""

/-- The assistant message `content` produced by `_normalize_response`:
collapse to the concatenated string when everything is a text part, emit
the ordered list otherwise, and fall back to `""` for empty content. -/
def cohereAssistantContent (data : Json) : Json :=
  let oc := cohereOrderedContent data
  let content :=
    if !oc.isEmpty then
      if !(cohereHasNonText data) && oc.all isTextTypePart then
        Json.str (String.join (oc.map partTextValue))
      else Json.arr oc
    else Json.str ""
  if !content.truthy && (cohereToolCalls data).isEmpty then Json.str "" else content

/-! ## Selector / failover engine (src/app/router/selector.py, src/app/api/openai.py)

The adapter call `adapter.chat_completions(provider_request)` is the only
external effect of the loop; it is modelled by a function from the
candidate provider and the resolved model to either a response or a raised
`ProviderUnavailableError`. The run result carries the returned/raised
value, the `record_event` emissions in order, and the upstream calls made
in order. -/

/-- Configured provider entry (`ProviderModel` of `app.core.config`),
restricted to the fields the selector reads. `defaultModel` is
`models.get("default")` when that value is a string, else `none`. -/
structure ProviderModel where
  id : String
  priority : Int
  defaultModel : Option String
deriving DecidableEq

/-- Stable insertion of a provider into a priority-sorted list: the new
element goes before the first element of equal or larger priority. -/
def orderedInsertByPriority (p : ProviderModel) :
    List ProviderModel → List ProviderModel
  | [] => [p]
  | q :: l =>
    if p.priority ≤ q.priority then p :: q :: l else q :: orderedInsertByPriority p l

/-- Embedding of `ProviderRegistry.providers()`:
`sorted(self._config.providers, key=lambda p: p.priority)`. Python `sorted`
is the unique stable sort by the key, realized here as a stable insertion
sort; stability and sortedness are proved below. -/
def sortByPriority : List ProviderModel → List ProviderModel
  | [] => []
  | p :: l => orderedInsertByPriority p (sortByPriority l)

/-- Embedding of `_resolve_request_model`: a nonempty request model wins,
else the configured default model (which must be a nonempty string). -/
def resolveRequestModel (reqModel : String) (p : ProviderModel) :
    Except PUError String :=
  if reqModel != "" then .ok reqModel
  else
    match p.defaultModel with
    | some m =>
      if m != "" then .ok m
      else .error { provider_id := p.id, message := "No default model configured",
                    isAuth := false }
    | none => .error { provider_id := p.id, message := "No default model configured",
                       isAuth := false }

/-- Keys of `ProviderRegistry._adapter_map`. -/
def adapterMapIds : List String := ["cerebras", "cohere", "gemini", "openrouter"]

/-- Embedding of `registry.get_adapter`: fails for a provider id with no
registered adapter class. -/
def getAdapterCheck (p : ProviderModel) : Except PUError Unit :=
  if adapterMapIds.contains p.id then .ok ()
  else .error { provider_id := p.id, message := "No adapter configured", isAuth := false }

/-- Result of one `adapter.chat_completions` call. -/
inductive CallResult (R : Type) where
  | ok (r : R)
  | err (e : PUError)
deriving DecidableEq

/-- One `record_event` emission performed by the selector. -/
structure SelectorEvent where
  kind : String
  level : String
  provider_from : Option String := none
  provider_to : Option String := none
  model : Option String := none
  message : Option String := none
  attempt : Option Nat := none
deriving DecidableEq

/-- Bookkeeping about the previous failed candidate
(`last_failed_provider_id` / `last_failure_message` / `last_failed_model`). -/
structure FailInfo where
  pid : String
  msg : String
  modl : String
deriving DecidableEq

/-- Observable outcome of a selector run: the value returned or raised,
the events emitted and the upstream calls made, both in order. -/
structure RunResult (R : Type) where
  result : Except PUError R
  events : List SelectorEvent
  calls : List (ProviderModel × CallResult R)

instance {E R : Type} [DecidableEq E] [DecidableEq R] : DecidableEq (Except E R) := fun a b =>
  match a, b with
  | .ok x, .ok y => decidable_of_iff (x = y) (by simp)
  | .error x, .error y => decidable_of_iff (x = y) (by simp)
  | .ok _, .error _ => isFalse (by simp)
  | .error _, .ok _ => isFalse (by simp)

instance {R : Type} [DecidableEq R] : DecidableEq (RunResult R) := fun a b =>
  decidable_of_iff (a.result = b.result ∧ a.events = b.events ∧ a.calls = b.calls)
    (by cases a; cases b; simp [RunResult.mk.injEq])

/-- The candidate loop of `select_provider`, one equation per loop entry;
the `[]` equation is the code after the loop. -/
def selectLoop {R : Type} (call : ProviderModel → String → CallResult R)
    (reqModel : String) :
    List ProviderModel → Nat → Option FailInfo → Option (PUError × String) → RunResult R
  | [], _, _, finalF =>
    match finalF with
    | some (e, m) =>
      { result := .error e,
        events := [{ kind := "request_error", level := "ERROR",
                     provider_from := some e.provider_id, model := some m,
                     message := some e.message }],
        calls := [] }
    | none =>
      { result := .error { provider_id := "unknown", message := "No providers configured",
                           isAuth := false },
        events := [], calls := [] }
  | p :: rest, attempt, prevF, _finalF =>
    let switchEvents : List SelectorEvent :=
      match prevF with
      | some f => [{ kind := "provider_switched", level := "INFO",
                     provider_from := some f.pid, provider_to := some p.id,
                     model := some f.modl, message := some f.msg, attempt := some attempt }]
      | none => []
    match resolveRequestModel reqModel p with
    | .error e => { result := .error e, events := switchEvents, calls := [] }
    | .ok m =>
      match getAdapterCheck p with
      | .error e => { result := .error e, events := switchEvents, calls := [] }
      | .ok _ =>
        match call p m with
        | .ok r => { result := .ok r, events := switchEvents, calls := [(p, .ok r)] }
        | .err e =>
          let failEvent : SelectorEvent :=
            { kind := "provider_fail", level := "WARNING",
              provider_from := some p.id, model := some m,
              message := some e.message, attempt := some attempt }
          let restRun :=
            selectLoop call reqModel rest (attempt + 1)
              (some { pid := p.id, msg := e.message, modl := m }) (some (e, m))
          { result := restRun.result,
            events := switchEvents ++ [failEvent] ++ restRun.events,
            calls := (p, CallResult.err e) :: restRun.calls }

/-- Candidate list of a run: the priority-sorted providers, or the single
override target. The Python lookup dict keeps the last provider per id,
hence `reverse.find?`. -/
def providersToTry (cfg : List ProviderModel) (providerId : Option String) :
    Except PUError (List ProviderModel) :=
  let avail := sortByPriority cfg
  match providerId with
  | some pid =>
    match avail.reverse.find? (fun p => p.id == pid) with
    | some p => .ok [p]
    | none => .error { provider_id := pid, message := "Provider not configured",
                       isAuth := false }
  | none => .ok avail

/-- Embedding of `select_provider`. -/
def select_provider {R : Type} (cfg : List ProviderModel)
    (call : ProviderModel → String → CallResult R) (reqModel : String)
    (providerId : Option String) : RunResult R :=
  match providersToTry cfg providerId with
  | .error e => { result := .error e, events := [], calls := [] }
  | .ok cands => selectLoop call reqModel cands 1 none none

/-- Response of the ingress route: the normal response or the JSON error
body with its HTTP status. -/
inductive IngressResult (R : Type) where
  | ok (r : R)
  | errJson (status : Nat) (message ty code : String)
deriving DecidableEq

/-- Embedding of the error mapping in the `create_chat_completion` route:
`AuthenticationRequiredError` (caught first) becomes HTTP 401 with code
`provider_auth_required`; any other `ProviderUnavailableError` becomes
HTTP 429 with code `provider_unavailable`. -/
def create_chat_completion {R : Type} (result : Except PUError R) : IngressResult R :=
  match result with
  | .ok r => .ok r
  | .error e =>
    let pid := e.provider_id
    let msg := e.message
    if e.isAuth then
      .errJson 401 (s!"Provider \x27{pid}\x27 credentials missing")
        "invalid_request_error" "provider_auth_required"
    else
      .errJson 429 (s!"Provider \x27{pid}\x27 is unavailable: {msg}")
        "rate_limit_exceeded" "provider_unavailable"

/-- HTTP status of an ingress result. -/
def IngressResult.statusCode {R : Type} : IngressResult R → Option Nat
  | .ok _ => none
  | .errJson s _ _ _ => some s

/-- Error code of an ingress result. -/
def IngressResult.errorCode {R : Type} : IngressResult R → Option String
  | .ok _ => none
  | .errJson _ _ _ c => some c

/-! ## Shared fixtures and derived predicates used by the theorems -/

/-- Message of the `ProviderUnavailableError` raised by an attempt, if any. -/
def adapterErrorMessage (res : AdapterResult) : Option String :=
  match res.outcome with
  | .error (.pu e) => some e.message
  | _ => none

/-- Gemini 429 body carrying `error.status` and `error.message`. -/
def geminiQuotaBody : Json :=
  .obj [("error", .obj [("status", .str "RESOURCE_EXHAUSTED"), ("message", .str "Quota exceeded")])]

/-- Gemini 403 body as exercised by the adapter tests of the repository. -/
def forbiddenBody : Json :=
  .obj [("error", .obj [("status", .str "PERMISSION_DENIED"), ("message", .str "API key invalid.")])]

/-- Two-provider configuration (listed out of priority order). -/
def sampleCfg : List ProviderModel :=
  [{ id := "gemini", priority := 20, defaultModel := some "gemini-2.5-flash" },
   { id := "cohere", priority := 10, defaultModel := some "command-r" }]

/-- Adapter behavior where the cohere call fails and any other succeeds. -/
def sampleCallOk : ProviderModel → String → CallResult Nat := fun p _ =>
  if p.id == "cohere" then .err { provider_id := "cohere", message := "Provider quota exhausted",
                                  isAuth := false }
  else .ok 7

/-- Adapter behavior where every call raises `ProviderUnavailableError`. -/
def sampleCallFail : ProviderModel → String → CallResult Nat := fun p _ =>
  .err { provider_id := p.id, message := "Provider error", isAuth := false }

/-- Meta payload containing a value `json.dumps` rejects. -/
def badMeta : PyVal := .dict [("payload", .objRef)]

/-- Serializable meta payload as emitted by the selector. -/
def goodMeta : PyVal := .dict [("attempt", .int 1)]

/-- Credential store holding one errored gemini row. -/
def sampleCredStore : CredStore :=
  { nextId := 2,
    rows := [{ id := 1, provider_id := "gemini", api_key := "key",
               last_error := some "rate_limit", last_error_at := some 50, updated_at := 50 }] }

/-- Empty provider-log store. -/
def sampleLogStore : LogStore := { nextId := 1, rows := [] }

/-- Cohere response body holding one text item and one image item with a
URL source. -/
def cohereImageData : Json :=
  .obj [("message", .obj [("content", .arr [
    .obj [("type", .str "text"), ("text", .str "see")],
    .obj [("type", .str "image"),
          ("source", .obj [("type", .str "url"), ("url", .str "https://x/y.png")])]])])]

/-- Combined reachability invariant of the credential store: structural
well-formedness plus the per-row error-field synchronization. -/
def CombinedInv (st : CredStore) : Prop :=
  StoreWf st ∧ ∀ r ∈ st.rows, RowErrInv r

/-- Invariant carried through the Cohere content walk: every ordered
content part is a text part or an `image_url` part, and the `has_non_text`
flag witnesses an `image_url` part. -/
def WalkStateInv (st : CohereWalkState) : Prop :=
  (∀ p ∈ st.oc, isTextTypePart p = true ∨ isImageUrlPart p = true) ∧
  (st.hnt = true → ∃ p ∈ st.oc, isImageUrlPart p = true ∧ isTextTypePart p = false)

/-- Row update performed by `upsert_api_key` on an existing row. -/
def upsertRowUpdate (key : String) (now : Nat) (r : ProviderCredential) : ProviderCredential :=
  { r with api_key := key, last_error := none, last_error_at := none, updated_at := now }

/-- Row inserted by `upsert_api_key` when the provider has no row yet. -/
def freshCredRow (pid key : String) (now i : Nat) : ProviderCredential :=
  { id := i, provider_id := pid, api_key := key, last_error := none, last_error_at := none,
    updated_at := now }

/-! ## Credential store lemmas -/

lemma map_eq_id_of_mem {α : Type} {f : α → α} :
    ∀ {l : List α}, (∀ x ∈ l, f x = x) → l.map f = l := by
  intro l h
  induction l with
  | nil => rfl
  | cons x xs ih =>
    simp only [List.map_cons]
    rw [h x (by simp), ih (fun y hy => h y (by simp [hy]))]

lemma eq_of_mem_pairwise_pid {l : List ProviderCredential}
    (hp : l.Pairwise (fun a b => a.provider_id ≠ b.provider_id))
    {a b : ProviderCredential} (ha : a ∈ l) (hb : b ∈ l)
    (hab : a.provider_id = b.provider_id) : a = b := by
  induction l with
  | nil => cases ha
  | cons x xs ih =>
    rcases List.mem_cons.mp ha with rfl | ha' <;> rcases List.mem_cons.mp hb with rfl | hb'
    · rfl
    · exact absurd hab ((List.pairwise_cons.mp hp).1 _ hb')
    · exact absurd hab.symm ((List.pairwise_cons.mp hp).1 _ ha')
    · exact ih (List.pairwise_cons.mp hp).2 ha' hb'

lemma find?_updateRowsById (i : Nat) (g : ProviderCredential → ProviderCredential)
    (hpid : ∀ r, (g r).provider_id = r.provider_id)
    (rows : List ProviderCredential) (pid : String) :
    (updateRowsById i g rows).find? (fun r => r.provider_id == pid)
      = (rows.find? (fun r => r.provider_id == pid)).map
          (fun r => if r.id == i then g r else r) := by
  unfold updateRowsById
  rw [List.find?_map]
  have hp : ((fun r => r.provider_id == pid) ∘ fun r => if (r.id == i) = true then g r else r)
      = fun r => r.provider_id == pid := by
    funext r
    by_cases h : r.id == i <;> simp [Function.comp, h, hpid]
  rw [hp]

lemma combinedInv_update {st : CredStore} (i : Nat)
    (g : ProviderCredential → ProviderCredential)
    (hpid : ∀ r, (g r).provider_id = r.provider_id)
    (hid : ∀ r, (g r).id = r.id)
    (herr : ∀ r, RowErrInv (g r))
    (hinv : CombinedInv st) :
    CombinedInv { st with rows := updateRowsById i g st.rows } := by
  obtain ⟨⟨hpw, hiw, hbound⟩, herr'⟩ := hinv
  refine ⟨⟨?_, ?_, ?_⟩, ?_⟩
  · unfold updateRowsById
    rw [List.pairwise_map]
    refine hpw.imp ?_
    intro a b hab
    by_cases ha : a.id == i <;> by_cases hb : b.id == i <;> simp [ha, hb, hpid, hab]
  · unfold updateRowsById
    rw [List.pairwise_map]
    refine hiw.imp ?_
    intro a b hab
    by_cases ha : a.id == i <;> by_cases hb : b.id == i <;> simp [ha, hb, hid, hab]
  · intro r hr
    rcases List.mem_map.mp hr with ⟨r0, hr0, rfl⟩
    by_cases h : r0.id == i <;> simp [h, hid] <;> exact hbound r0 hr0
  · intro r hr
    rcases List.mem_map.mp hr with ⟨r0, hr0, rfl⟩
    by_cases h : r0.id == i <;> simp only [h, if_true, if_false, ite_true, ite_false]
    · exact herr r0
    · exact herr' r0 hr0

lemma combinedInv_append_fresh {st : CredStore} (row : ProviderCredential)
    (hid : row.id = st.nextId) (hrow : RowErrInv row)
    (hfresh : findCredential st row.provider_id = none)
    (hinv : CombinedInv st) :
    CombinedInv { nextId := st.nextId + 1, rows := st.rows ++ [row] } := by
  obtain ⟨⟨hpw, hiw, hbound⟩, herr'⟩ := hinv
  have hnomem : ∀ a ∈ st.rows, a.provider_id ≠ row.provider_id := by
    intro a ha
    have := List.find?_eq_none.mp hfresh a ha
    simpa using this
  refine ⟨⟨?_, ?_, ?_⟩, ?_⟩
  · rw [List.pairwise_append]
    exact ⟨hpw, List.pairwise_singleton _ _, fun a ha b hb => by
      simp only [List.mem_singleton] at hb; subst hb; exact hnomem a ha⟩
  · rw [List.pairwise_append]
    refine ⟨hiw, List.pairwise_singleton _ _, fun a ha b hb => ?_⟩
    simp only [List.mem_singleton] at hb; subst hb
    rw [hid]
    exact Nat.ne_of_lt (hbound a ha)
  · intro r hr
    rcases List.mem_append.mp hr with hr | hr
    · exact Nat.lt_succ_of_lt (hbound r hr)
    · simp only [List.mem_singleton] at hr; subst hr
      rw [hid]; exact Nat.lt_succ_self _
  · intro r hr
    rcases List.mem_append.mp hr with hr | hr
    · exact herr' r hr
    · simp only [List.mem_singleton] at hr; subst hr; exact hrow

lemma combinedInv_applyCredOp (st : CredStore) (op : CredOp)
    (hinv : CombinedInv st) : CombinedInv (applyCredOp st op) := by
  cases op with
  | upsert pid key now =>
    show CombinedInv (upsert_api_key pid key now st)
    unfold upsert_api_key
    cases hfind : findCredential st pid with
    | some ex =>
      exact combinedInv_update ex.id _ (fun r => rfl) (fun r => rfl)
        (fun r => by simp [RowErrInv]) hinv
    | none =>
      exact combinedInv_append_fresh _ rfl (by simp [RowErrInv]) hfind hinv
  | recordErr pid code now =>
    show CombinedInv (record_error pid code now st)
    unfold record_error
    cases hfind : findCredential st pid with
    | some ex =>
      exact combinedInv_update ex.id _ (fun r => rfl) (fun r => rfl)
        (fun r => by simp [RowErrInv]) hinv
    | none =>
      exact combinedInv_append_fresh _ rfl (by simp [RowErrInv]) hfind hinv
  | clearErr pid now =>
    show CombinedInv (clear_error pid now st)
    unfold clear_error
    cases hfind : findCredential st pid with
    | some ex =>
      by_cases htr : errTruthy ex.last_error
      · simp only [htr, if_true]
        exact combinedInv_update ex.id _ (fun r => rfl) (fun r => rfl)
          (fun r => by simp [RowErrInv]) hinv
      · simp only [htr, if_false]; exact hinv
    | none => exact hinv
  | delete pid =>
    show CombinedInv (delete_api_key pid st).2
    unfold delete_api_key
    cases hfind : findCredential st pid with
    | some ex =>
      obtain ⟨⟨hpw, hiw, hbound⟩, herr'⟩ := hinv
      refine ⟨⟨hpw.sublist (List.filter_sublist _), hiw.sublist (List.filter_sublist _), ?_⟩, ?_⟩
      · intro r hr; exact hbound r (List.mem_filter.mp hr).1
      · intro r hr; exact herr' r (List.mem_filter.mp hr).1
    | none => exact hinv

lemma combinedInv_applyCredOps (ops : List CredOp) :
    ∀ st : CredStore, CombinedInv st → CombinedInv (applyCredOps ops st) := by
  induction ops with
  | nil => intro st h; exact h
  | cons op rest ih =>
    intro st h
    exact ih _ (combinedInv_applyCredOp st op h)

lemma combinedInv_empty : CombinedInv emptyCredStore := by
  refine ⟨⟨List.Pairwise.nil, List.Pairwise.nil, ?_⟩, ?_⟩ <;> intro r hr <;> cases hr

lemma upsert_eq_update (pid key : String) (now : Nat) (st : CredStore)
    (ex : ProviderCredential) (hfind : findCredential st pid = some ex) :
    upsert_api_key pid key now st
      = { st with rows := updateRowsById ex.id (upsertRowUpdate key now) st.rows } := by
  unfold upsert_api_key
  rw [hfind]
  rfl

lemma upsert_eq_append (pid key : String) (now : Nat) (st : CredStore)
    (hfind : findCredential st pid = none) :
    upsert_api_key pid key now st
      = { nextId := st.nextId + 1, rows := st.rows ++ [freshCredRow pid key now st.nextId] } := by
  unfold upsert_api_key
  rw [hfind]
  rfl

lemma updateRowsById_updateRowsById (i : Nat)
    (g₂ g₁ : ProviderCredential → ProviderCredential)
    (rows : List ProviderCredential)
    (hid : ∀ r, (g₁ r).id = r.id) (hcomp : ∀ r, g₂ (g₁ r) = g₂ r) :
    updateRowsById i g₂ (updateRowsById i g₁ rows) = updateRowsById i g₂ rows := by
  unfold updateRowsById
  rw [List.map_map]
  congr 1
  funext r
  by_cases h : r.id == i <;> simp [Function.comp, h, hid, hcomp]

/-- C4: after `upsert(p, k)` the stored key for `p` is `k` and the error
fields of the row for `p` are both null; moreover running the same upsert
twice in succession leaves the store in the same state as running it once. -/
theorem upsert_establishes_key_and_is_idempotent (pid key : String) (t1 t2 : Nat)
    (st : CredStore) (hwf : StoreWf st) :
    get_api_key pid (upsert_api_key pid key t1 st) = some key ∧
    (∀ r ∈ (upsert_api_key pid key t1 st).rows, r.provider_id = pid →
        r.last_error = none ∧ r.last_error_at = none) ∧
    upsert_api_key pid key t2 (upsert_api_key pid key t1 st)
      = upsert_api_key pid key t2 st := by
  obtain ⟨hpw, hiw, hbound⟩ := hwf
  cases hfind : findCredential st pid with
  | some ex =>
    have hexmem : ex ∈ st.rows := List.mem_of_find?_eq_some hfind
    have hexpid : ex.provider_id = pid := by simpa using List.find?_some hfind
    rw [upsert_eq_update pid key t1 st ex hfind]
    have hfind1 : findCredential
        { st with rows := updateRowsById ex.id (upsertRowUpdate key t1) st.rows } pid
        = some (upsertRowUpdate key t1 ex) := by
      unfold findCredential
      show List.find? (fun r => r.provider_id == pid)
        (updateRowsById ex.id (upsertRowUpdate key t1) st.rows) = _
      rw [find?_updateRowsById ex.id (upsertRowUpdate key t1) (fun r => rfl) st.rows pid]
      unfold findCredential at hfind
      rw [hfind]
      simp
    refine ⟨?_, ?_, ?_⟩
    · unfold get_api_key
      rw [hfind1]
      rfl
    · intro r hr hrp
      rcases List.mem_map.mp hr with ⟨r0, hr0, rfl⟩
      by_cases h : r0.id == ex.id
      · simp [h, upsertRowUpdate]
      · exfalso
        rw [if_neg h] at hrp
        have heq : r0 = ex := eq_of_mem_pairwise_pid hpw hr0 hexmem (by rw [hrp, hexpid])
        exact h (by simp [heq])
    · rw [upsert_eq_update pid key t2 _ _ hfind1]
      rw [upsert_eq_update pid key t2 st ex hfind]
      have hids : (upsertRowUpdate key t1 ex).id = ex.id := rfl
      rw [hids]
      congr 1
      exact updateRowsById_updateRowsById ex.id _ _ st.rows (fun r => rfl) (fun r => rfl)
  | none =>
    rw [upsert_eq_append pid key t1 st hfind]
    have hnomem : ∀ a ∈ st.rows, ¬(a.provider_id == pid) = true :=
      List.find?_eq_none.mp hfind
    have hfind1 : findCredential
        { nextId := st.nextId + 1, rows := st.rows ++ [freshCredRow pid key t1 st.nextId] } pid
        = some (freshCredRow pid key t1 st.nextId) := by
      unfold findCredential
      rw [List.find?_append]
      unfold findCredential at hfind
      rw [hfind]
      simp [freshCredRow]
    refine ⟨?_, ?_, ?_⟩
    · unfold get_api_key
      rw [hfind1]
      rfl
    · intro r hr hrp
      rcases List.mem_append.mp hr with hr | hr
      · exact absurd (by simp [hrp]) (hnomem r hr)
      · simp only [List.mem_singleton] at hr
        subst hr
        exact ⟨rfl, rfl⟩
    · rw [upsert_eq_update pid key t2 _ _ hfind1]
      rw [upsert_eq_append pid key t2 st hfind]
      have hids : (freshCredRow pid key t1 st.nextId).id = st.nextId := rfl
      rw [hids]
      congr 1
      unfold updateRowsById
      rw [List.map_append]
      have hrows : st.rows.map (fun r =>
          if r.id == st.nextId then upsertRowUpdate key t2 r else r) = st.rows := by
        apply map_eq_id_of_mem
        intro r hr
        have hne : r.id ≠ st.nextId := Nat.ne_of_lt (hbound r hr)
        simp [hne]
      rw [hrows]
      simp [freshCredRow, upsertRowUpdate]

/-- Witness for C4 at a concrete provider, key, pair of timestamps and the
empty store. -/
theorem upsert_establishes_key_and_is_idempotent_witness :
    StoreWf emptyCredStore ∧
    (get_api_key "cohere" (upsert_api_key "cohere" "key-1" 5 emptyCredStore) = some "key-1" ∧
     (∀ r ∈ (upsert_api_key "cohere" "key-1" 5 emptyCredStore).rows, r.provider_id = "cohere" →
         r.last_error = none ∧ r.last_error_at = none) ∧
     upsert_api_key "cohere" "key-1" 6 (upsert_api_key "cohere" "key-1" 5 emptyCredStore)
       = upsert_api_key "cohere" "key-1" 6 emptyCredStore) :=
  ⟨by decide,
   upsert_establishes_key_and_is_idempotent "cohere" "key-1" 5 6 emptyCredStore (by decide)⟩

/-- C3: starting from the empty store, every sequence of credential
mutations leaves at most one row per provider id, and in every row
`last_error_at` is null exactly when `last_error` is null. -/
theorem credential_store_invariant_sequences (ops : List CredOp) :
    (applyCredOps ops emptyCredStore).rows.Pairwise
        (fun a b => a.provider_id ≠ b.provider_id) ∧
    ∀ r ∈ (applyCredOps ops emptyCredStore).rows,
        (r.last_error_at = none ↔ r.last_error = none) := by
  have h := combinedInv_applyCredOps ops emptyCredStore combinedInv_empty
  exact ⟨h.1.1, fun r hr => h.2 r hr⟩

/-- Witness for C3 at a concrete mutation sequence touching two providers. -/
theorem credential_store_invariant_sequences_witness :
    (applyCredOps [CredOp.upsert "cohere" "k" 1, CredOp.recordErr "cohere" "auth" 2,
                   CredOp.upsert "gemini" "g" 3, CredOp.clearErr "cohere" 4,
                   CredOp.delete "gemini"] emptyCredStore).rows.Pairwise
        (fun a b => a.provider_id ≠ b.provider_id) ∧
    ∀ r ∈ (applyCredOps [CredOp.upsert "cohere" "k" 1, CredOp.recordErr "cohere" "auth" 2,
                         CredOp.upsert "gemini" "g" 3, CredOp.clearErr "cohere" 4,
                         CredOp.delete "gemini"] emptyCredStore).rows,
        (r.last_error_at = none ↔ r.last_error = none) :=
  credential_store_invariant_sequences
    [CredOp.upsert "cohere" "k" 1, CredOp.recordErr "cohere" "auth" 2,
     CredOp.upsert "gemini" "g" 3, CredOp.clearErr "cohere" 4, CredOp.delete "gemini"]

/-! ## Telemetry theorems -/

/-- C5: a committed `record_event` (events enabled) leaves no event row
with `ts` before `start_of_today_UTC - (RETENTION_DAYS - 1)` days, and a
committed `record_provider_log` leaves no provider-log row with
`created_at` before `start_of_today_UTC`. -/
theorem retention_after_completed_writes
    (kind level : String) (message request_id : Option String) (meta : Option PyVal)
    (fields : EventFields) (ctx : Option String) (now : Nat)
    (rows outRows : List OrchestratorEvent)
    (hok : record_event true kind level message request_id meta fields ctx now true rows
        = Except.ok outRows)
    (pid : String) (reqB resB : Option Json) (reqId ctx2 : Option String)
    (now2 : Nat) (logs : LogStore) :
    (∀ r ∈ outRows, currentRetentionCutoff now ≤ r.ts) ∧
    (∀ r ∈ (record_provider_log pid reqB resB reqId ctx2 now2 true logs).rows,
        startOfTodayUtc now2 ≤ r.created_at) := by
  constructor
  · unfold record_event at hok
    simp only [Bool.not_true, if_false, ite_false] at hok
    cases hmeta : buildEventMeta meta with
    | error e => rw [hmeta] at hok; cases hok
    | ok metaStr =>
      rw [hmeta] at hok
      simp only [if_true, ite_true] at hok
      cases hok
      intro r hr
      have := List.of_mem_filter hr
      exact of_decide_eq_true this
  · unfold record_provider_log
    simp only [if_true, ite_true]
    intro r hr
    rcases List.mem_append.mp hr with hr | hr
    · exact of_decide_eq_true (List.mem_filter.mp hr).2
    · simp only [List.mem_singleton] at hr
      subst hr
      exact Nat.div_mul_le_self now2 secondsPerDay

/-- Witness for C5 at a concrete event write and provider-log write. -/
theorem retention_after_completed_writes_witness :
    (record_event true "provider_fail" "WARNING" none none none
        { provider_from := some "cohere" } none 200000 true
        [{ ts := 1, level := "INFO", kind := "old", request_id := none, provider_from := none,
           provider_to := none, model := none, error_code := none, message := none,
           meta := none }]
      = Except.ok [{ ts := 200000, level := "WARNING", kind := "provider_fail",
                     request_id := none, provider_from := some "cohere", provider_to := none,
                     model := none, error_code := none, message := none, meta := none }]) ∧
    ((∀ r ∈ [({ ts := 200000, level := "WARNING", kind := "provider_fail",
                request_id := none, provider_from := some "cohere", provider_to := none,
                model := none, error_code := none, message := none,
                meta := none } : OrchestratorEvent)], currentRetentionCutoff 200000 ≤ r.ts) ∧
     (∀ r ∈ (record_provider_log "cohere" none none none none 200000 true sampleLogStore).rows,
         startOfTodayUtc 200000 ≤ r.created_at)) :=
  ⟨rfl,
   retention_after_completed_writes "provider_fail" "WARNING" none none none
     { provider_from := some "cohere" } none 200000
     [{ ts := 1, level := "INFO", kind := "old", request_id := none, provider_from := none,
        provider_to := none, model := none, error_code := none, message := none, meta := none }]
     _ rfl "cohere" none none none none 200000 sampleLogStore⟩

/-- C8 counterexample: `record_event` propagates the `TypeError` raised by
`json.dumps` on a non-serializable `meta`, because the event row is built
before the guarded `try` block. -/
theorem record_event_raises_on_bad_meta_counterexample :
    record_event true "provider_fail" "WARNING" none none (some badMeta)
        { provider_from := some "cohere" } none 7 true []
      = Except.error "Object of type object is not JSON serializable" := rfl

/-- C8 amended: whenever the `meta` serialization performed while building
the event row succeeds, `record_event` returns normally for every input,
in particular when the transactional write fails (the failure is
swallowed). -/
theorem record_event_best_effort
    (enabled : Bool) (kind level : String) (message request_id : Option String)
    (meta : Option PyVal) (fields : EventFields) (ctx : Option String)
    (now : Nat) (dbOk : Bool) (rows : List OrchestratorEvent)
    (hmeta : (buildEventMeta meta).isOk = true) :
    ∃ out, record_event enabled kind level message request_id meta fields ctx now dbOk rows
        = Except.ok out := by
  unfold record_event
  cases enabled with
  | false => exact ⟨rows, rfl⟩
  | true =>
    simp only [Bool.not_true, if_false, ite_false]
    cases hm : buildEventMeta meta with
    | error e => rw [hm] at hmeta; cases hmeta
    | ok metaStr =>
      cases dbOk with
      | true => exact ⟨_, rfl⟩
      | false => exact ⟨rows, rfl⟩

/-- Witness for C8 (amended) at a serializable meta and a failing
transactional write. -/
theorem record_event_best_effort_witness :
    (buildEventMeta (some goodMeta)).isOk = true ∧
    ∃ out, record_event true "provider_switched" "INFO" none none (some goodMeta)
        { provider_from := some "cohere", provider_to := some "gemini" } none 9 false []
      = Except.ok out :=
  ⟨by decide,
   record_event_best_effort true "provider_switched" "INFO" none none (some goodMeta)
     { provider_from := some "cohere", provider_to := some "gemini" } none 9 false []
     (by decide)⟩

/-! ## Adapter classification theorems -/

lemma appendDetail_eq (base : String) (det : Option String) :
    ∃ rest, appendDetail base det = base ++ rest := by
  cases det with
  | none => exact ⟨"", by simp [appendDetail]⟩
  | some d =>
    by_cases h : d != ""
    · exact ⟨": " ++ d, by simp [appendDetail, h, String.append_assoc]⟩
    · exact ⟨"", by simp [appendDetail, h]⟩

lemma tracedPostChat_rate_limit (pid : String) (payload : Json) (status : Nat)
    (body : Option Json) (text : String)
    (h : status = 402 ∨ status = 403 ∨ status = 429) :
    (tracedPostChat pid payload (.response status body text) true).creds
        = [CredAction.record "rate_limit"] ∧
    (tracedPostChat pid payload (.response status body text) true).outcome
        = .error (.pu { provider_id := pid, message := "Provider quota exhausted",
                        isAuth := false }) := by
  rcases h with rfl | rfl | rfl <;> exact ⟨rfl, rfl⟩

lemma tracedPostChat_http_error (pid : String) (payload : Json) (status : Nat)
    (body : Option Json) (text : String)
    (h400 : 400 ≤ status) (h599 : status ≤ 599) (h401 : status ≠ 401)
    (h402 : status ≠ 402) (h403 : status ≠ 403) (h429 : status ≠ 429) :
    (tracedPostChat pid payload (.response status body text) true).creds
        = [CredAction.record (s!"http_{status}")] ∧
    (tracedPostChat pid payload (.response status body text) true).outcome
        = .error (.pu { provider_id := pid, message := "Provider error", isAuth := false }) := by
  have e1 : (status == 401) = false := by simp [h401]
  have e2 : (status == 402) = false := by simp [h402]
  have e3 : (status == 403) = false := by simp [h403]
  have e4 : (status == 429) = false := by simp [h429]
  have e5 : isHttpError status = true := by simp [isHttpError, h400, h599]
  unfold tracedPostChat
  simp [e1, e2, e3, e4, e5]

lemma gemini_rate_limit (payload : Json) (status : Nat)
    (body : Option Json) (text : String)
    (h : status = 402 ∨ status = 403 ∨ status = 429) :
    (gemini_post_chat payload (.response status body text) true).creds
        = [CredAction.record "rate_limit"] ∧
    (gemini_post_chat payload (.response status body text) true).outcome
        = .error (.pu (geminiDetailedError "Provider quota exhausted" body text)) := by
  rcases h with rfl | rfl | rfl <;> exact ⟨rfl, rfl⟩

lemma gemini_http_error (payload : Json) (status : Nat)
    (body : Option Json) (text : String)
    (h400 : 400 ≤ status) (h599 : status ≤ 599) (h401 : status ≠ 401)
    (h402 : status ≠ 402) (h403 : status ≠ 403) (h429 : status ≠ 429) :
    (gemini_post_chat payload (.response status body text) true).creds
        = [CredAction.record (s!"http_{status}")] ∧
    (gemini_post_chat payload (.response status body text) true).outcome
        = .error (.pu (geminiDetailedError "Provider error" body text)) := by
  have e1 : (status == 401) = false := by simp [h401]
  have e2 : (status == 402) = false := by simp [h402]
  have e3 : (status == 403) = false := by simp [h403]
  have e4 : (status == 429) = false := by simp [h429]
  have e5 : isHttpError status = true := by simp [isHttpError, h400, h599]
  unfold gemini_post_chat
  simp [e1, e2, e3, e4, e5, geminiDetailedError]

lemma openrouter_rate_limit (payload : Json) (status : Nat)
    (body : Option Json) (text : String)
    (h : status = 402 ∨ status = 403 ∨ status = 429) :
    (openrouter_post_chat payload (.response status body text) true).creds
        = [CredAction.record "rate_limit"] ∧
    (openrouter_post_chat payload (.response status body text) true).outcome
        = .error (.pu { provider_id := "openrouter", message := "Provider quota exhausted",
                        isAuth := false }) := by
  rcases h with rfl | rfl | rfl <;> exact ⟨rfl, rfl⟩

lemma openrouter_http_error (payload : Json) (status : Nat)
    (body : Option Json) (text : String)
    (h400 : 400 ≤ status) (h599 : status ≤ 599) (h401 : status ≠ 401)
    (h402 : status ≠ 402) (h403 : status ≠ 403) (h429 : status ≠ 429) :
    (openrouter_post_chat payload (.response status body text) true).creds
        = [CredAction.record (s!"http_{status}")] ∧
    (openrouter_post_chat payload (.response status body text) true).outcome
        = .error (.pu { provider_id := "openrouter", message := "Provider error",
                        isAuth := false }) := by
  have e1 : (status == 401) = false := by simp [h401]
  have e2 : (status == 402) = false := by simp [h402]
  have e3 : (status == 403) = false := by simp [h403]
  have e4 : (status == 429) = false := by simp [h429]
  have e5 : isHttpError status = true := by simp [isHttpError, h400, h599]
  unfold openrouter_post_chat
  simp [e1, e2, e3, e4, e5]

/-- C6 amended: on the real call path every registered adapter maps an
HTTP 402, 403 or 429 to credential error `rate_limit` and a raised
`provider_unavailable` whose message starts with "Provider quota
exhausted", and any other 4xx/5xx (except 401) to credential error
`http_<status>` and a raised `provider_unavailable` whose message starts
with "Provider error"; the message carries a nonempty suffix only for the
Gemini adapter, which appends ": <detail>" parsed from the error body. -/
theorem adapter_http_error_classification (a : AdapterKind)
    (_ha : a ∈ registeredAdapters) (payload : Json) (status : Nat)
    (body : Option Json) (text : String) :
    ((status = 402 ∨ status = 403 ∨ status = 429) →
      (postChat a payload (.response status body text) true).creds
          = [CredAction.record "rate_limit"] ∧
      ∃ e rest, (postChat a payload (.response status body text) true).outcome
            = .error (.pu e) ∧
        e.isAuth = false ∧ e.message = "Provider quota exhausted" ++ rest ∧
        (a ≠ AdapterKind.gemini → rest = "")) ∧
    (400 ≤ status → status ≤ 599 → status ≠ 401 → status ≠ 402 → status ≠ 403 →
      status ≠ 429 →
      (postChat a payload (.response status body text) true).creds
          = [CredAction.record (s!"http_{status}")] ∧
      ∃ e rest, (postChat a payload (.response status body text) true).outcome
            = .error (.pu e) ∧
        e.isAuth = false ∧ e.message = "Provider error" ++ rest ∧
        (a ≠ AdapterKind.gemini → rest = "")) := by
  clear _ha
  cases a with
  | cerebras =>
    constructor
    · intro h
      obtain ⟨hc, ho⟩ := tracedPostChat_rate_limit "cerebras" payload status body text h
      exact ⟨hc, _, "", ho, rfl, by simp, fun _ => rfl⟩
    · intro h400 h599 h401 h402 h403 h429
      obtain ⟨hc, ho⟩ :=
        tracedPostChat_http_error "cerebras" payload status body text h400 h599 h401 h402 h403 h429
      exact ⟨hc, _, "", ho, rfl, by simp, fun _ => rfl⟩
  | cohere =>
    constructor
    · intro h
      obtain ⟨hc, ho⟩ := tracedPostChat_rate_limit "cohere" payload status body text h
      exact ⟨hc, _, "", ho, rfl, by simp, fun _ => rfl⟩
    · intro h400 h599 h401 h402 h403 h429
      obtain ⟨hc, ho⟩ :=
        tracedPostChat_http_error "cohere" payload status body text h400 h599 h401 h402 h403 h429
      exact ⟨hc, _, "", ho, rfl, by simp, fun _ => rfl⟩
  | openrouter =>
    constructor
    · intro h
      obtain ⟨hc, ho⟩ := openrouter_rate_limit payload status body text h
      exact ⟨hc, _, "", ho, rfl, by simp, fun _ => rfl⟩
    · intro h400 h599 h401 h402 h403 h429
      obtain ⟨hc, ho⟩ :=
        openrouter_http_error payload status body text h400 h599 h401 h402 h403 h429
      exact ⟨hc, _, "", ho, rfl, by simp, fun _ => rfl⟩
  | gemini =>
    constructor
    · intro h
      obtain ⟨hc, ho⟩ := gemini_rate_limit payload status body text h
      obtain ⟨rest, hrest⟩ :=
        appendDetail_eq "Provider quota exhausted" (gemini_extract_error_detail body text)
      refine ⟨hc, _, rest, ho, rfl, hrest, fun hne => absurd rfl hne⟩
    · intro h400 h599 h401 h402 h403 h429
      obtain ⟨hc, ho⟩ := gemini_http_error payload status body text h400 h599 h401 h402 h403 h429
      obtain ⟨rest, hrest⟩ :=
        appendDetail_eq "Provider error" (gemini_extract_error_detail body text)
      refine ⟨hc, _, rest, ho, rfl, hrest, fun hne => absurd rfl hne⟩

/-- C6 counterexample: at HTTP 429 with a Gemini error body carrying
`error.status` and `error.message`, the raised message is not the bare
"Provider quota exhausted" the claim states: the parsed detail is
appended. -/
theorem gemini_quota_message_counterexample :
    adapterErrorMessage
        (gemini_post_chat (Json.obj []) (.response 429 (some geminiQuotaBody) "") true)
      = some "Provider quota exhausted: RESOURCE_EXHAUSTED - Quota exceeded" ∧
    "Provider quota exhausted: RESOURCE_EXHAUSTED - Quota exceeded"
      ≠ "Provider quota exhausted" := by
  exact ⟨rfl, by decide⟩

/-- Witness for C6 (amended) at the Cohere adapter and HTTP 402. -/
theorem adapter_http_error_classification_witness :
    AdapterKind.cohere ∈ registeredAdapters ∧
    (((402 = 402 ∨ 402 = 403 ∨ 402 = 429) →
      (postChat AdapterKind.cohere (Json.obj []) (.response 402 none "") true).creds
          = [CredAction.record "rate_limit"] ∧
      ∃ e rest, (postChat AdapterKind.cohere (Json.obj []) (.response 402 none "") true).outcome
            = .error (.pu e) ∧
        e.isAuth = false ∧ e.message = "Provider quota exhausted" ++ rest ∧
        (AdapterKind.cohere ≠ AdapterKind.gemini → rest = "")) ∧
    (400 ≤ 402 → 402 ≤ 599 → 402 ≠ 401 → 402 ≠ 402 → 402 ≠ 403 → 402 ≠ 429 →
      (postChat AdapterKind.cohere (Json.obj []) (.response 402 none "") true).creds
          = [CredAction.record (s!"http_{402}")] ∧
      ∃ e rest, (postChat AdapterKind.cohere (Json.obj []) (.response 402 none "") true).outcome
            = .error (.pu e) ∧
        e.isAuth = false ∧ e.message = "Provider error" ++ rest ∧
        (AdapterKind.cohere ≠ AdapterKind.gemini → rest = ""))) :=
  ⟨by decide,
   adapter_http_error_classification AdapterKind.cohere (by decide) (Json.obj []) 402 none ""⟩

/-- C7: at a classified failure (HTTP 403) on the real call path the
Gemini adapter writes no trace entry at all, while the Cohere adapter
writes exactly one entry with the documented error shape; the validation
path (`track_errors=false`) performs no credential action either way. The
repository's own Gemini adapter tests monkeypatch
`app.providers.gemini.record_provider_log` and assert one trace per
attempt, which the Gemini source cannot satisfy: it never calls
`record_provider_log`. -/
theorem gemini_missing_trace_at_failing_input :
    (gemini_post_chat (Json.obj []) (.response 403 (some forbiddenBody) "") true).traces = [] ∧
    (cohere_post_chat (Json.obj []) (.response 403 (some forbiddenBody) "") true).traces
      = [(Json.obj [],
          build_error_log "rate_limit" "HTTP 403" (some 403) (some forbiddenBody))] ∧
    (gemini_post_chat (Json.obj []) (.response 403 (some forbiddenBody) "") false).creds = [] ∧
    (cohere_post_chat (Json.obj []) (.response 403 (some forbiddenBody) "") false).creds = [] ∧
    (cohere_post_chat (Json.obj []) (.response 403 (some forbiddenBody) "") false).traces = [] :=
  ⟨rfl, rfl, rfl, rfl, rfl⟩

lemma clear_error_errors_none (pid : String) (now : Nat) (st : CredStore)
    (hpw : st.rows.Pairwise (fun r q => r.provider_id ≠ q.provider_id))
    (hrows : ∀ r ∈ st.rows, (r.last_error_at = none ↔ r.last_error = none) ∧
        r.last_error ≠ some "") :
    ∀ r ∈ (clear_error pid now st).rows, r.provider_id = pid →
      r.last_error = none ∧ r.last_error_at = none := by
  unfold clear_error
  cases hfind : findCredential st pid with
  | none =>
    intro r hr hrp
    exact absurd (by simp [hrp]) (List.find?_eq_none.mp hfind r hr)
  | some ex =>
    have hexmem := List.mem_of_find?_eq_some hfind
    have hexpid : ex.provider_id = pid := by simpa using List.find?_some hfind
    by_cases htr : errTruthy ex.last_error
    · simp only [htr, if_true, ite_true]
      intro r hr hrp
      rcases List.mem_map.mp hr with ⟨r0, hr0, rfl⟩
      by_cases h : r0.id == ex.id
      · simp [h]
      · exfalso
        rw [if_neg h] at hrp
        have heq : r0 = ex := eq_of_mem_pairwise_pid hpw hr0 hexmem (by rw [hrp, hexpid])
        exact h (by simp [heq])
    · simp only [htr, if_false, ite_false]
      intro r hr hrp
      have heq : r = ex := eq_of_mem_pairwise_pid hpw hr hexmem (by rw [hrp, hexpid])
      subst heq
      rcases hlec : r.last_error with _ | s
      · exact ⟨rfl, ((hrows r hr).1).mpr hlec⟩
      · exfalso
        have hs : s = "" := by simpa [errTruthy, hlec] using htr
        exact (hrows r hr).2 (by rw [hlec, hs])

/-- C10: on the real call path of every registered adapter, a 2xx
response clears the stored credential error before the body is inspected:
the only credential action of the attempt is the clear, a body that is
valid JSON but not an object raises `provider_unavailable` "Unexpected
response format", and the provider's row afterwards has `last_error` and
`last_error_at` both null. -/
theorem two_xx_clears_error_before_inspection (a : AdapterKind)
    (_ha : a ∈ registeredAdapters) (payload : Json) (status : Nat)
    (h200 : 200 ≤ status) (h299 : status ≤ 299) (j : Json) (hobj : j.isObj = false)
    (text : String) (st : CredStore) (now : Nat)
    (hpw : st.rows.Pairwise (fun r q => r.provider_id ≠ q.provider_id))
    (hrows : ∀ r ∈ st.rows, (r.last_error_at = none ↔ r.last_error = none) ∧
        r.last_error ≠ some "") :
    (postChat a payload (.response status (some j) text) true).creds = [CredAction.clear] ∧
    (postChat a payload (.response status (some j) text) true).outcome
        = .error (.pu { provider_id := adapterProviderId a,
                        message := "Unexpected response format", isAuth := false }) ∧
    ∀ r ∈ (applyCredActions (adapterProviderId a) now
        (postChat a payload (.response status (some j) text) true).creds st).rows,
      r.provider_id = adapterProviderId a →
        r.last_error = none ∧ r.last_error_at = none := by
  have e1 : (status == 401) = false := by simp; omega
  have e2 : (status == 402) = false := by simp; omega
  have e3 : (status == 403) = false := by simp; omega
  have e4 : (status == 429) = false := by simp; omega
  have e5 : isHttpError status = false := by
    simp only [isHttpError, Bool.and_eq_false_iff, decide_eq_false_iff_not]
    left; omega
  have hcreds : (postChat a payload (.response status (some j) text) true).creds
      = [CredAction.clear] ∧
      (postChat a payload (.response status (some j) text) true).outcome
        = .error (.pu { provider_id := adapterProviderId a,
                        message := "Unexpected response format", isAuth := false }) := by
    cases a with
    | cerebras =>
      constructor <;>
        simp [postChat, cerebras_post_chat, tracedPostChat, e1, e2, e3, e4, e5, hobj,
          adapterProviderId]
    | cohere =>
      constructor <;>
        simp [postChat, cohere_post_chat, tracedPostChat, e1, e2, e3, e4, e5, hobj,
          adapterProviderId]
    | gemini =>
      constructor <;>
        simp [postChat, gemini_post_chat, e1, e2, e3, e4, e5, hobj, adapterProviderId]
    | openrouter =>
      constructor <;>
        simp [postChat, openrouter_post_chat, e1, e2, e3, e4, e5, hobj, adapterProviderId]
  refine ⟨hcreds.1, hcreds.2, ?_⟩
  rw [hcreds.1]
  show ∀ r ∈ (clear_error (adapterProviderId a) now st).rows, _
  exact clear_error_errors_none (adapterProviderId a) now st hpw hrows

/-- Witness for C10 at the Gemini adapter, HTTP 200, an array body and a
store holding an errored gemini row. -/
theorem two_xx_clears_error_before_inspection_witness :
    (AdapterKind.gemini ∈ registeredAdapters ∧ 200 ≤ 200 ∧ 200 ≤ 299 ∧
     (Json.arr []).isObj = false ∧
     sampleCredStore.rows.Pairwise (fun r q => r.provider_id ≠ q.provider_id) ∧
     (∀ r ∈ sampleCredStore.rows, (r.last_error_at = none ↔ r.last_error = none) ∧
         r.last_error ≠ some "")) ∧
    ((postChat AdapterKind.gemini (Json.obj []) (.response 200 (some (Json.arr [])) "")
        true).creds = [CredAction.clear] ∧
     (postChat AdapterKind.gemini (Json.obj []) (.response 200 (some (Json.arr [])) "")
        true).outcome
        = .error (.pu { provider_id := adapterProviderId AdapterKind.gemini,
                        message := "Unexpected response format", isAuth := false }) ∧
     ∀ r ∈ (applyCredActions (adapterProviderId AdapterKind.gemini) 60
        (postChat AdapterKind.gemini (Json.obj []) (.response 200 (some (Json.arr [])) "")
          true).creds sampleCredStore).rows,
        r.provider_id = adapterProviderId AdapterKind.gemini →
          r.last_error = none ∧ r.last_error_at = none) :=
  ⟨⟨by decide, by decide, by decide, by decide, by decide, by decide⟩,
   two_xx_clears_error_before_inspection AdapterKind.gemini (by decide) (Json.obj []) 200
     (by decide) (by decide) (Json.arr []) (by decide) "" sampleCredStore 60 (by decide)
     (by decide)⟩

/-! ## Cohere normalization theorems -/

lemma convert_item_shape {item c : Json}
    (h : convert_response_content_item item = some c) :
    isImageUrlPart c = true ∧ isTextTypePart c = false := by
  unfold convert_response_content_item at h
  repeat' split at h
  all_goals try cases h
  all_goals simp [isImageUrlPart, isTextTypePart, Json.get, lookupKv]

lemma walkStep_inv {st : CohereWalkState} (item : Json) (h : WalkStateInv st) :
    WalkStateInv (cohereWalkStep st item) := by
  obtain ⟨h1, h2⟩ := h
  unfold cohereWalkStep
  split
  · -- text item
    split
    · refine ⟨?_, ?_⟩
      · intro p hp
        rcases List.mem_append.mp hp with hp | hp
        · exact h1 p hp
        · simp only [List.mem_singleton] at hp
          subst hp
          left
          simp [isTextTypePart, Json.get, lookupKv]
      · intro hh
        obtain ⟨p, hp, hshape⟩ := h2 hh
        exact ⟨p, List.mem_append_left _ hp, hshape⟩
    · exact ⟨h1, h2⟩
    · refine ⟨?_, ?_⟩
      · intro p hp
        rcases List.mem_append.mp hp with hp | hp
        · exact h1 p hp
        · simp only [List.mem_singleton] at hp
          subst hp
          left
          simp [isTextTypePart, Json.get, lookupKv]
      · intro hh
        obtain ⟨p, hp, hshape⟩ := h2 hh
        exact ⟨p, List.mem_append_left _ hp, hshape⟩
  · exact ⟨h1, h2⟩
  · exact ⟨h1, h2⟩
  · -- default: converted item
    split
    case _ c hc =>
      obtain ⟨hi, ht⟩ := convert_item_shape hc
      refine ⟨?_, ?_⟩
      · intro p hp
        rcases List.mem_append.mp hp with hp | hp
        · exact h1 p hp
        · simp only [List.mem_singleton] at hp
          subst hp
          right
          exact hi
      · intro _
        exact ⟨c, List.mem_append_right _ (by simp), hi, ht⟩
    · exact ⟨h1, h2⟩

lemma foldl_walk_inv :
    ∀ (items : List Json) (st : CohereWalkState), WalkStateInv st →
      WalkStateInv (items.foldl cohereWalkStep st)
  | [], _, h => h
  | item :: rest, _, h => foldl_walk_inv rest _ (walkStep_inv item h)

lemma walk_inv (data : Json) : WalkStateInv (cohereWalk data) := by
  unfold cohereWalk
  apply foldl_walk_inv
  exact ⟨fun p hp => absurd hp (List.not_mem_nil p), fun h => by cases h⟩

lemma orderedContent_inv (data : Json) :
    ∀ p ∈ cohereOrderedContent data, isTextTypePart p = true ∨ isImageUrlPart p = true := by
  intro p hp
  unfold cohereOrderedContent at hp
  by_cases he : (cohereWalk data).oc.isEmpty
  · simp only [he, if_true, ite_true] at hp
    split at hp
    · split at hp
      · simp only [List.mem_singleton] at hp
        subst hp
        left
        simp [isTextTypePart, Json.get, lookupKv]
      · cases hp
    · cases hp
  · simp only [he, if_false, ite_false] at hp
    exact (walk_inv data).1 p hp

lemma orderedContent_eq_walk_of_not_empty (data : Json)
    (he : (cohereWalk data).oc.isEmpty = false) :
    cohereOrderedContent data = (cohereWalk data).oc := by
  unfold cohereOrderedContent
  simp [he]

lemma reassign_noop (c : Json) (tc : List Json)
    (h : c.truthy = false → c = Json.str "") :
    (if !c.truthy && tc.isEmpty then Json.str "" else c) = c := by
  by_cases hc : c.truthy
  · simp [hc]
  · have hc' : c.truthy = false := by revert hc; cases c.truthy <;> simp
    rw [h hc']
    split <;> rfl

/-- C9: the assistant content produced by the Cohere response
normalization collapses to the concatenated string when the ordered
content holds only text parts, is emitted as the ordered list with at
least one `image_url` part when it holds any non-text part (only image
conversions set the non-text flag), and becomes `""` when the ordered
content is empty with no tool calls. -/
theorem cohere_assistant_content_shape (data : Json) :
    ((∀ p ∈ cohereOrderedContent data, isTextTypePart p = true) →
        cohereAssistantContent data
          = .str (String.join ((cohereOrderedContent data).map partTextValue))) ∧
    ((∃ p ∈ cohereOrderedContent data, isTextTypePart p = false) →
        cohereAssistantContent data = .arr (cohereOrderedContent data) ∧
        ∃ p ∈ cohereOrderedContent data, isImageUrlPart p = true) ∧
    (cohereOrderedContent data = [] → cohereToolCalls data = [] →
        cohereAssistantContent data = .str "") := by
  refine ⟨?_, ?_, ?_⟩
  · intro hall
    by_cases he : (cohereOrderedContent data).isEmpty
    · have hoc : cohereOrderedContent data = [] := List.isEmpty_iff.mp he
      unfold cohereAssistantContent
      rw [hoc]
      simp [String.join]
    · have he' : (cohereOrderedContent data).isEmpty = false := by
        revert he; cases (cohereOrderedContent data).isEmpty <;> simp
      have hhnt : cohereHasNonText data = false := by
        by_contra hb
        have hb' : cohereHasNonText data = true := by
          revert hb; cases (cohereHasNonText data) <;> simp
        obtain ⟨p, hp, _, ht⟩ := (walk_inv data).2 hb'
        by_cases hw : (cohereWalk data).oc.isEmpty
        · rw [List.isEmpty_iff.mp hw] at hp
          cases hp
        · have hw' : (cohereWalk data).oc.isEmpty = false := by
            revert hw; cases (cohereWalk data).oc.isEmpty <;> simp
          have hoc := orderedContent_eq_walk_of_not_empty data hw'
          have := hall p (by rw [hoc]; exact hp)
          rw [this] at ht
          cases ht
      have hallb : (cohereOrderedContent data).all isTextTypePart = true :=
        List.all_eq_true.mpr hall
      have hcond : (!(cohereHasNonText data)
          && (cohereOrderedContent data).all isTextTypePart) = true := by
        rw [hhnt, hallb]
        rfl
      unfold cohereAssistantContent
      simp only [he', Bool.not_false, if_true, ite_true, hcond]
      apply reassign_noop
      intro htr
      simp only [Json.truthy] at htr
      have hjoin : String.join ((cohereOrderedContent data).map partTextValue) = "" := by
        simpa using htr
      rw [hjoin]
  · intro hex
    obtain ⟨p0, hp0, hp0t⟩ := hex
    have hwalkne : (cohereWalk data).oc.isEmpty = false := by
      by_contra hb
      have hb' : (cohereWalk data).oc.isEmpty = true := by
        revert hb; cases (cohereWalk data).oc.isEmpty <;> simp
      simp only [cohereOrderedContent, hb', if_true, ite_true] at hp0
      split at hp0
      · split at hp0
        · simp only [List.mem_singleton] at hp0
          subst hp0
          simp [isTextTypePart, Json.get, lookupKv] at hp0t
        · cases hp0
      · cases hp0
    have hoc : cohereOrderedContent data = (cohereWalk data).oc :=
      orderedContent_eq_walk_of_not_empty data hwalkne
    have he' : (cohereOrderedContent data).isEmpty = false := by
      rw [hoc]; exact hwalkne
    have hallb : (cohereOrderedContent data).all isTextTypePart = false := by
      rcases hb : (cohereOrderedContent data).all isTextTypePart with _ | _
      · rfl
      · have := List.all_eq_true.mp hb p0 hp0
        rw [this] at hp0t
        cases hp0t
    have hcond : (!(cohereHasNonText data)
        && (cohereOrderedContent data).all isTextTypePart) = false := by
      rw [hallb]
      simp
    constructor
    · unfold cohereAssistantContent
      simp only [he', Bool.not_false, if_true, ite_true, hcond, Bool.false_eq_true, if_false,
        ite_false]
      apply reassign_noop
      intro htr
      exfalso
      simp only [Json.truthy, he'] at htr
      cases htr
    · have hshape := orderedContent_inv data p0 hp0
      rcases hshape with ht | hi
      · rw [ht] at hp0t; cases hp0t
      · exact ⟨p0, hp0, hi⟩
  · intro hoc _
    unfold cohereAssistantContent
    rw [hoc]
    simp

/-- Witness for C9 at a Cohere body with one text item and one image
item. -/
theorem cohere_assistant_content_shape_witness :
    ((∀ p ∈ cohereOrderedContent cohereImageData, isTextTypePart p = true) →
        cohereAssistantContent cohereImageData
          = .str (String.join ((cohereOrderedContent cohereImageData).map partTextValue))) ∧
    ((∃ p ∈ cohereOrderedContent cohereImageData, isTextTypePart p = false) →
        cohereAssistantContent cohereImageData = .arr (cohereOrderedContent cohereImageData) ∧
        ∃ p ∈ cohereOrderedContent cohereImageData, isImageUrlPart p = true) ∧
    (cohereOrderedContent cohereImageData = [] → cohereToolCalls cohereImageData = [] →
        cohereAssistantContent cohereImageData = .str "") :=
  cohere_assistant_content_shape cohereImageData

/-! ## Selector theorems -/

lemma filter_orderedInsertByPriority (p : ProviderModel) (l : List ProviderModel) (k : Int) :
    (orderedInsertByPriority p l).filter (fun q => q.priority == k)
      = if p.priority == k then p :: l.filter (fun q => q.priority == k)
        else l.filter (fun q => q.priority == k) := by
  induction l with
  | nil =>
    by_cases hp : (p.priority == k) = true <;>
      simp [orderedInsertByPriority, List.filter_cons, hp]
  | cons q l ih =>
    unfold orderedInsertByPriority
    by_cases hle : p.priority ≤ q.priority
    · rw [if_pos hle]
      by_cases hp : (p.priority == k) = true <;> by_cases hq : (q.priority == k) = true <;>
        simp [List.filter_cons, hp, hq]
    · rw [if_neg hle]
      by_cases hp : (p.priority == k) = true
      · by_cases hq : (q.priority == k) = true
        · exfalso
          have hp' : p.priority = k := by simpa using hp
          have hq' : q.priority = k := by simpa using hq
          omega
        · simp [List.filter_cons, hp, hq, ih]
      · simp [List.filter_cons, hp, ih]

lemma filter_sortByPriority (l : List ProviderModel) (k : Int) :
    (sortByPriority l).filter (fun q => q.priority == k)
      = l.filter (fun q => q.priority == k) := by
  induction l with
  | nil => rfl
  | cons p l ih =>
    unfold sortByPriority
    rw [filter_orderedInsertByPriority]
    by_cases hp : (p.priority == k) = true <;> simp [List.filter_cons, hp, ih]

lemma mem_orderedInsertByPriority {x p : ProviderModel} {l : List ProviderModel} :
    x ∈ orderedInsertByPriority p l ↔ x = p ∨ x ∈ l := by
  induction l with
  | nil => simp [orderedInsertByPriority]
  | cons q l ih =>
    unfold orderedInsertByPriority
    by_cases hle : p.priority ≤ q.priority
    · simp [hle]
    · simp [hle, ih]
      tauto

lemma sorted_orderedInsertByPriority (p : ProviderModel) (l : List ProviderModel)
    (h : l.Pairwise (fun a b => a.priority ≤ b.priority)) :
    (orderedInsertByPriority p l).Pairwise (fun a b => a.priority ≤ b.priority) := by
  induction l with
  | nil => simp [orderedInsertByPriority]
  | cons q l ih =>
    rcases List.pairwise_cons.mp h with ⟨hq, hl⟩
    unfold orderedInsertByPriority
    by_cases hle : p.priority ≤ q.priority
    · rw [if_pos hle]
      refine List.pairwise_cons.mpr ⟨?_, h⟩
      intro x hx
      rcases List.mem_cons.mp hx with rfl | hx
      · exact hle
      · exact le_trans hle (hq x hx)
    · rw [if_neg hle]
      refine List.pairwise_cons.mpr ⟨?_, ih hl⟩
      intro x hx
      rcases mem_orderedInsertByPriority.mp hx with rfl | hx
      · omega
      · exact hq x hx

lemma sorted_sortByPriority (l : List ProviderModel) :
    (sortByPriority l).Pairwise (fun a b => a.priority ≤ b.priority) := by
  induction l with
  | nil => exact List.Pairwise.nil
  | cons p l ih => exact sorted_orderedInsertByPriority p (sortByPriority l) ih

lemma selectLoop_success {R : Type} (call : ProviderModel → String → CallResult R)
    (reqModel : String) :
    ∀ (l : List ProviderModel) (a : Nat) (pf : Option FailInfo)
      (ff : Option (PUError × String)) (r : R),
      (∃ pc ∈ (selectLoop call reqModel l a pf ff).calls, pc.2 = CallResult.ok r) →
      ∃ i p, l[i]? = some p ∧
        (selectLoop call reqModel l a pf ff).result = Except.ok r ∧
        (∃ m, resolveRequestModel reqModel p = .ok m ∧ getAdapterCheck p = .ok () ∧
              call p m = CallResult.ok r) ∧
        (∀ j q, j < i → l[j]? = some q →
            ∃ m e, resolveRequestModel reqModel q = .ok m ∧ getAdapterCheck q = .ok () ∧
                   call q m = CallResult.err e) ∧
        (selectLoop call reqModel l a pf ff).calls.map Prod.fst = l.take (i + 1) := by
  intro l
  induction l with
  | nil =>
    intro a pf ff r h
    exfalso
    rcases h with ⟨pc, hpc, _⟩
    cases ff with
    | none => simp [selectLoop] at hpc
    | some fm => cases fm with | mk e m => simp [selectLoop] at hpc
  | cons p rest ih =>
    intro a pf ff r h
    cases hres : resolveRequestModel reqModel p with
    | error e =>
      exfalso
      rcases h with ⟨pc, hpc, _⟩
      simp [selectLoop, hres] at hpc
    | ok m =>
      cases hga : getAdapterCheck p with
      | error e =>
        exfalso
        rcases h with ⟨pc, hpc, _⟩
        simp [selectLoop, hres, hga] at hpc
      | ok u =>
        cases u
        cases hcall : call p m with
        | ok r0 =>
          rcases h with ⟨pc, hpc, hpc2⟩
          simp only [selectLoop, hres, hga, hcall, List.mem_singleton] at hpc
          subst hpc
          simp only at hpc2
          have hr0 : r0 = r := by
            cases hpc2
            rfl
          subst hr0
          refine ⟨0, p, by simp, ?_, ⟨m, hres, hga, hcall⟩, ?_, ?_⟩
          · simp [selectLoop, hres, hga, hcall]
          · intro j q hj _
            omega
          · simp [selectLoop, hres, hga, hcall]
        | err e =>
          rcases h with ⟨pc, hpc, hpc2⟩
          have hstep_calls : (selectLoop call reqModel (p :: rest) a pf ff).calls
              = (p, CallResult.err e) ::
                (selectLoop call reqModel rest (a + 1)
                  (some { pid := p.id, msg := e.message, modl := m })
                  (some (e, m))).calls := by
            simp [selectLoop, hres, hga, hcall]
          have hstep_result : (selectLoop call reqModel (p :: rest) a pf ff).result
              = (selectLoop call reqModel rest (a + 1)
                  (some { pid := p.id, msg := e.message, modl := m })
                  (some (e, m))).result := by
            simp [selectLoop, hres, hga, hcall]
          rw [hstep_calls] at hpc
          rcases List.mem_cons.mp hpc with rfl | hpc'
          · simp at hpc2
          · obtain ⟨i, p', hip, hres', hsucc, hprior, hcallsmap⟩ :=
              ih (a + 1) (some { pid := p.id, msg := e.message, modl := m })
                (some (e, m)) r ⟨pc, hpc', hpc2⟩
            refine ⟨i + 1, p', ?_, ?_, hsucc, ?_, ?_⟩
            · simpa [List.getElem?_cons_succ] using hip
            · rw [hstep_result]
              exact hres'
            · intro j q hj hq
              cases j with
              | zero =>
                simp only [List.getElem?_cons_zero, Option.some_inj] at hq
                subst hq
                exact ⟨m, e, hres, hga, hcall⟩
              | succ j' =>
                have hj' : j' < i := by omega
                exact hprior j' q hj' (by simpa using hq)
            · rw [hstep_calls]
              simp only [List.map_cons, List.take_succ_cons, hcallsmap]

/-- C1: in a selector run without a provider override in which some
upstream call succeeds, the returned response comes from the first
provider of the priority-sorted candidate list whose call did not fail,
every earlier candidate was called and failed, and no provider after the
successful one is called. The candidate list is the stable
priority-ascending sort of the configuration: it is sorted by priority and
preserves, for every priority value, the configuration order of the
providers having it. -/
theorem select_provider_returns_first_success {R : Type} (cfg : List ProviderModel)
    (call : ProviderModel → String → CallResult R) (reqModel : String) (r : R)
    (hsucc : ∃ pc ∈ (select_provider cfg call reqModel none).calls,
        pc.2 = CallResult.ok r) :
    (∀ k : Int, (sortByPriority cfg).filter (fun p => p.priority == k)
        = cfg.filter (fun p => p.priority == k)) ∧
    (sortByPriority cfg).Pairwise (fun a b => a.priority ≤ b.priority) ∧
    (∃ i p, (sortByPriority cfg)[i]? = some p ∧
      (select_provider cfg call reqModel none).result = Except.ok r ∧
      (∃ m, resolveRequestModel reqModel p = .ok m ∧ getAdapterCheck p = .ok () ∧
            call p m = CallResult.ok r) ∧
      (∀ j q, j < i → (sortByPriority cfg)[j]? = some q →
          ∃ m e, resolveRequestModel reqModel q = .ok m ∧ getAdapterCheck q = .ok () ∧
                 call q m = CallResult.err e) ∧
      (select_provider cfg call reqModel none).calls.map Prod.fst
        = (sortByPriority cfg).take (i + 1)) := by
  have hsp : select_provider cfg call reqModel none
      = selectLoop call reqModel (sortByPriority cfg) 1 none none := by
    simp [select_provider, providersToTry]
  rw [hsp] at hsucc ⊢
  exact ⟨fun k => filter_sortByPriority cfg k, sorted_sortByPriority cfg,
    selectLoop_success call reqModel (sortByPriority cfg) 1 none none r hsucc⟩

/-- Witness for C1 at a two-provider configuration whose higher-priority
provider fails and whose lower-priority provider succeeds. -/
theorem select_provider_returns_first_success_witness :
    (∃ pc ∈ (select_provider sampleCfg sampleCallOk "m" none).calls,
        pc.2 = CallResult.ok 7) ∧
    ((∀ k : Int, (sortByPriority sampleCfg).filter (fun p => p.priority == k)
        = sampleCfg.filter (fun p => p.priority == k)) ∧
     (sortByPriority sampleCfg).Pairwise (fun a b => a.priority ≤ b.priority) ∧
     (∃ i p, (sortByPriority sampleCfg)[i]? = some p ∧
       (select_provider sampleCfg sampleCallOk "m" none).result = Except.ok 7 ∧
       (∃ m, resolveRequestModel "m" p = .ok m ∧ getAdapterCheck p = .ok () ∧
             sampleCallOk p m = CallResult.ok 7) ∧
       (∀ j q, j < i → (sortByPriority sampleCfg)[j]? = some q →
           ∃ m e, resolveRequestModel "m" q = .ok m ∧ getAdapterCheck q = .ok () ∧
                  sampleCallOk q m = CallResult.err e) ∧
       (select_provider sampleCfg sampleCallOk "m" none).calls.map Prod.fst
         = (sortByPriority sampleCfg).take (i + 1))) :=
  ⟨by decide,
   select_provider_returns_first_success sampleCfg sampleCallOk "m" 7 (by decide)⟩

lemma selectLoop_all_fail {R : Type} (call : ProviderModel → String → CallResult R)
    (reqModel : String) :
    ∀ (l : List ProviderModel), l ≠ [] →
      (∀ p ∈ l, ∃ m, resolveRequestModel reqModel p = .ok m ∧
          getAdapterCheck p = .ok () ∧
          ∃ e, call p m = CallResult.err e ∧ e.isAuth = false ∧ e.provider_id = p.id) →
      ∀ (a : Nat) (pf : Option FailInfo) (ff : Option (PUError × String)),
        ∃ plast elast mlast, l.getLast? = some plast ∧
          resolveRequestModel reqModel plast = .ok mlast ∧
          call plast mlast = CallResult.err elast ∧
          elast.isAuth = false ∧ elast.provider_id = plast.id ∧
          (selectLoop call reqModel l a pf ff).result = Except.error elast ∧
          (selectLoop call reqModel l a pf ff).events.filter
              (fun ev => ev.kind == "request_error")
            = [{ kind := "request_error", level := "ERROR",
                 provider_from := some elast.provider_id, provider_to := none,
                 model := some mlast, message := some elast.message, attempt := none }] := by
  intro l
  induction l with
  | nil => intro h; exact absurd rfl h
  | cons p rest ih =>
    intro _ hfail a pf ff
    obtain ⟨m, hres, hga, e, hcall, hna, hpid⟩ := hfail p (by simp)
    by_cases hrest : rest = []
    · subst hrest
      refine ⟨p, e, m, by simp, hres, hcall, hna, hpid, ?_, ?_⟩
      · simp [selectLoop, hres, hga, hcall]
      · cases pf with
        | none => simp [selectLoop, hres, hga, hcall, List.filter_append]
        | some f => simp [selectLoop, hres, hga, hcall, List.filter_append]
    · have hfailrest : ∀ q ∈ rest, ∃ m, resolveRequestModel reqModel q = .ok m ∧
          getAdapterCheck q = .ok () ∧
          ∃ e, call q m = CallResult.err e ∧ e.isAuth = false ∧ e.provider_id = q.id :=
        fun q hq => hfail q (List.mem_cons_of_mem p hq)
      obtain ⟨plast, elast, mlast, hlast, hres', hcall', hna', hpid', hresult, hevents⟩ :=
        ih hrest hfailrest (a + 1) (some { pid := p.id, msg := e.message, modl := m })
          (some (e, m))
      refine ⟨plast, elast, mlast, ?_, hres', hcall', hna', hpid', ?_, ?_⟩
      · rw [List.getLast?_cons, hlast]
        rfl
      · simp only [selectLoop, hres, hga, hcall]
        exact hresult
      · simp only [selectLoop, hres, hga, hcall, List.filter_append]
        rw [hevents]
        cases pf with
        | none => simp
        | some f => simp

/-- C2: when every candidate resolves a model, has an adapter, and fails
with a non-auth `ProviderUnavailableError` carrying its own provider id,
the selector raises the error of the last-tried candidate, emits exactly
one `request_error` ERROR event whose `provider_from` is the last-tried
candidate's id, and the ingress route maps the raised error to HTTP 429
with code `provider_unavailable`. -/
theorem select_provider_all_fail_error_path {R : Type} (cfg : List ProviderModel)
    (call : ProviderModel → String → CallResult R) (reqModel : String)
    (providerId : Option String) (cands : List ProviderModel)
    (hc : providersToTry cfg providerId = .ok cands) (hne : cands ≠ [])
    (hfail : ∀ p ∈ cands, ∃ m, resolveRequestModel reqModel p = .ok m ∧
        getAdapterCheck p = .ok () ∧
        ∃ e, call p m = CallResult.err e ∧ e.isAuth = false ∧ e.provider_id = p.id) :
    ∃ plast elast mlast, cands.getLast? = some plast ∧
      resolveRequestModel reqModel plast = .ok mlast ∧
      call plast mlast = CallResult.err elast ∧
      elast.provider_id = plast.id ∧
      (select_provider cfg call reqModel providerId).result = Except.error elast ∧
      (select_provider cfg call reqModel providerId).events.filter
          (fun ev => ev.kind == "request_error")
        = [{ kind := "request_error", level := "ERROR",
             provider_from := some plast.id, provider_to := none,
             model := some mlast, message := some elast.message, attempt := none }] ∧
      (create_chat_completion
          (select_provider cfg call reqModel providerId).result).statusCode = some 429 ∧
      (create_chat_completion
          (select_provider cfg call reqModel providerId).result).errorCode
        = some "provider_unavailable" := by
  have hsp : select_provider cfg call reqModel providerId
      = selectLoop call reqModel cands 1 none none := by
    unfold select_provider
    rw [hc]
  obtain ⟨plast, elast, mlast, hlast, hres, hcall, hna, hpid, hresult, hevents⟩ :=
    selectLoop_all_fail call reqModel cands hne hfail 1 none none
  rw [hsp]
  refine ⟨plast, elast, mlast, hlast, hres, hcall, hpid, hresult, ?_, ?_, ?_⟩
  · rw [hevents, hpid]
  · rw [hresult]
    simp [create_chat_completion, hna, IngressResult.statusCode]
  · rw [hresult]
    simp [create_chat_completion, hna, IngressResult.errorCode]

/-- Witness for C2 at a two-provider configuration in which every call
raises a non-auth `ProviderUnavailableError`. -/
theorem select_provider_all_fail_error_path_witness :
    (providersToTry sampleCfg none = .ok (sortByPriority sampleCfg) ∧
     sortByPriority sampleCfg ≠ []) ∧
    (∃ plast elast mlast, (sortByPriority sampleCfg).getLast? = some plast ∧
      resolveRequestModel "m" plast = .ok mlast ∧
      sampleCallFail plast mlast = CallResult.err elast ∧
      elast.provider_id = plast.id ∧
      (select_provider sampleCfg sampleCallFail "m" none).result = Except.error elast ∧
      (select_provider sampleCfg sampleCallFail "m" none).events.filter
          (fun ev => ev.kind == "request_error")
        = [{ kind := "request_error", level := "ERROR",
             provider_from := some plast.id, provider_to := none,
             model := some mlast, message := some elast.message, attempt := none }] ∧
      (create_chat_completion
          (select_provider sampleCfg sampleCallFail "m" none).result).statusCode = some 429 ∧
      (create_chat_completion
          (select_provider sampleCfg sampleCallFail "m" none).result).errorCode
        = some "provider_unavailable") :=
  ⟨⟨rfl, by decide⟩,
   select_provider_all_fail_error_path sampleCfg sampleCallFail "m" none
     (sortByPriority sampleCfg) rfl (by decide)
     (by
       intro p hp
       have hp' : p = { id := "cohere", priority := 10, defaultModel := some "command-r" } ∨
           p = { id := "gemini", priority := 20,
                 defaultModel := some "gemini-2.5-flash" } := by
         simpa [sampleCfg, sortByPriority, orderedInsertByPriority] using hp
       rcases hp' with rfl | rfl <;>
         exact ⟨"m", rfl, by decide, ⟨_, rfl, rfl, rfl⟩⟩)⟩
